import Mathlib

/-!
# cf-nosql-broker: request validation, port allocation, handlers and TLS policy

A shallow embedding of the pure core of the broker (`endpoint/validator.go`,
`endpoint/handler.go`, `security/cryptography.go`) together with the properties
proved about it.

Conventions of the embedding:

* a Go `string` is a Lean `String`, read as the sequence of runes of a valid UTF-8 text;
* a Go `error` is an `Option String`: `none` is `nil`, `some msg` carries `Error()`;
* a Go pointer that may be `nil` is an `Option`; dereferencing `nil` is a panic,
  recorded by `Outcome.panic`;
* `int` is the 64-bit signed integer of the amd64 build of the broker.

The file has two parts: the definitions, then the lemmas and theorems.
-/

namespace CfNosqlBroker

/-! ## Part 1: definitions -/

/-! ### Go runtime conventions -/

/-- Outcome of running a Go function: it returns a value, or the goroutine panics. -/
inductive Outcome (α : Type) where
  | ret (a : α)
  | panic (reason : String)
deriving DecidableEq, Repr

/-- A Go `error` value: `none` is `nil`, `some msg` is an error whose text is `msg`. -/
abbrev GoError := Option String

/-! ### `regexp`: the fragment used by `isUUID` -/

/-- Abstract syntax of the regular expressions needed for the UUID pattern:
`^`, `$`, a literal rune, a character class of inclusive ranges, concatenation
and the exact repetition `r{n}`. -/
inductive Regexp where
  | beginText
  | endText
  | literal (c : Char)
  | charClass (ranges : List (Char × Char))
  | concat (a b : Regexp)
  | repeatN (r : Regexp) (n : Nat)

/-- Membership of a rune in a character class given by inclusive ranges. -/
def inRanges (ranges : List (Char × Char)) (c : Char) : Bool :=
  ranges.any fun r => decide (r.1.toNat ≤ c.toNat) && decide (c.toNat ≤ r.2.toNat)

/-- Run `step` exactly `n` times in sequence, then continue with `k`. -/
def iterate (step : Nat → List Char → (Nat → List Char → Bool) → Bool) :
    Nat → Nat → List Char → (Nat → List Char → Bool) → Bool
  | 0, pos, s, k => k pos s
  | n + 1, pos, s, k => step pos s (fun p t => iterate step n p t k)

/-- Backtracking matcher in continuation-passing style. `pos` is the number of runes
already consumed from the text, `s` the remaining text and `k` the continuation that
must accept what is left after this expression. Without the multi-line flag `^`
holds only at position 0 and `$` only at the end of the text. -/
def matchHere : Regexp → Nat → List Char → (Nat → List Char → Bool) → Bool
  | .beginText, pos, s, k => pos == 0 && k pos s
  | .endText, pos, s, k => s.isEmpty && k pos s
  | .literal c, pos, s, k =>
    match s with
    | [] => false
    | x :: t => x == c && k (pos + 1) t
  | .charClass rs, pos, s, k =>
    match s with
    | [] => false
    | x :: t => inRanges rs x && k (pos + 1) t
  | .concat a b, pos, s, k => matchHere a pos s (fun p t => matchHere b p t k)
  | .repeatN r n, pos, s, k => iterate (matchHere r) n pos s k

/-- Unanchored search: is there a match starting at the current position or at
any later one? -/
def searchFrom (re : Regexp) : Nat → List Char → Bool
  | pos, [] => matchHere re pos [] (fun _ _ => true)
  | pos, c :: t => matchHere re pos (c :: t) (fun _ _ => true) || searchFrom re (pos + 1) t

/-- Model of `(*Regexp).MatchString`: the text contains some match of the expression. -/
def MatchString (re : Regexp) (s : String) : Bool := searchFrom re 0 s.data

/-- Concatenation of a sequence of expressions. -/
def Regexp.seq : List Regexp → Regexp
  | [] => .repeatN .beginText 0
  | [r] => r
  | r :: rs => .concat r (Regexp.seq rs)

/-- The class `[0-9a-f]`. -/
def hexClass : Regexp := .charClass [('0', '9'), ('a', 'f')]

/-- The compiled pattern
`^[0-9a-f]{8}-[0-9a-f]{4}-[0-9a-f]{4}-[0-9a-f]{4}-[0-9a-f]{12}$`. -/
def UUID : Regexp :=
  Regexp.seq [.beginText, .repeatN hexClass 8, .literal '-', .repeatN hexClass 4, .literal '-',
    .repeatN hexClass 4, .literal '-', .repeatN hexClass 4, .literal '-', .repeatN hexClass 12,
    .endText]

/-! ### `endpoint/validator.go` -/

/-- Request body of a provision call (`model.ProvisionBody`). -/
structure ProvisionBody where
  ServiceID : String
  PlanID : String
  OrganizationID : String
  SpaceID : String
deriving DecidableEq, Repr

/-- Database parameters of a bind call (`model.Database`). -/
structure Database where
  Name : String
  UserName : String
  Password : String
deriving DecidableEq, Repr

/-- Request body of a bind call (`model.BindBody`). -/
structure BindBody where
  ServiceID : String
  PlanID : String
  Database : Database
deriving DecidableEq, Repr

/-- Text of the missing-field error. -/
def nullError : String := "The field is requiered and cannot be null/empty"

/-- Text of the malformed-identifier error. -/
def notValidUUID : String := "The input provided is not a valid UUID."

/-- Checks if a string is null: `len(str) == 0`. -/
def isNull (str : String) : Bool := str.length == 0

/-- Checks if the string is a UUID: the pattern `UUID` matches it. -/
def isUUID (str : String) : Bool := MatchString UUID str

/-- Validates the request fields for creating a database. The body is a pointer:
reading a field of a `nil` body panics before anything else is evaluated. -/
def validateProvisionInputs : Option ProvisionBody → String → Outcome GoError
  | none, _ => .panic "invalid memory address or nil pointer dereference"
  | some body, instanceID =>
    if isNull body.ServiceID || isNull body.PlanID || isNull body.OrganizationID
        || isNull body.SpaceID || isNull instanceID then
      .ret (some nullError)
    else if !isUUID body.ServiceID || !isUUID body.PlanID || !isUUID body.OrganizationID
        || !isUUID body.SpaceID || !isUUID instanceID then
      .ret (some notValidUUID)
    else
      .ret none

/-- Validates the request parameters for destroying a database. -/
def validateDeprovisionInputs (instanceID serviceID planID : String) : GoError :=
  if isNull instanceID || isNull serviceID || isNull planID then
    some nullError
  else if !isUUID instanceID || !isUUID serviceID || !isUUID planID then
    some notValidUUID
  else
    none

/-- Validates the request fields for binding a database service. The body is a
pointer: reading a field of a `nil` body panics. -/
def validateBindInputs : Option BindBody → String → String → Outcome GoError
  | none, _, _ => .panic "invalid memory address or nil pointer dereference"
  | some body, instanceID, bindingID =>
    if isNull body.ServiceID || isNull body.PlanID || isNull body.Database.Name
        || isNull body.Database.UserName || isNull body.Database.Password
        || isNull instanceID || isNull bindingID then
      .ret (some nullError)
    else if !isUUID body.ServiceID || !isUUID body.PlanID || !isUUID instanceID
        || !isUUID bindingID then
      .ret (some notValidUUID)
    else
      .ret none

/-- Validates the request parameters for unbinding a database service. -/
def validateUnBindInputs (instanceID bindingID serviceID planID : String) : GoError :=
  if isNull instanceID || isNull bindingID || isNull serviceID || isNull planID then
    some nullError
  else if !isUUID instanceID || !isUUID bindingID || !isUUID serviceID || !isUUID planID then
    some notValidUUID
  else
    none

/-! ### Canonical UUID text, as the specification words it -/

/-- A lowercase hexadecimal digit: one of `0`-`9` or `a`-`f`. -/
def isLowerHexDigit (c : Char) : Prop :=
  ('0'.toNat ≤ c.toNat ∧ c.toNat ≤ '9'.toNat)
    ∨ ('a'.toNat ≤ c.toNat ∧ c.toNat ≤ 'f'.toNat)

/-- The zero-based positions of the four hyphens of the 8-4-4-4-12 layout. -/
def hyphenPositions : List Nat := [8, 13, 18, 23]

/-- Canonical UUID text: exactly 36 characters, a hyphen at positions 8, 13, 18 and
23, a lowercase hexadecimal digit everywhere else. -/
def CanonicalUUID (s : String) : Prop :=
  s.length = 36 ∧
    ∀ (i : Nat) (c : Char), s.data[i]? = some c →
      if i ∈ hyphenPositions then c = '-' else isLowerHexDigit c

/-! ### Standard library functions used by `nextAvailablePort` -/

/-- Model of `unicode.IsSpace`: the Latin-1 white space and the other runes with the
Unicode White_Space property. -/
def IsSpace (r : Char) : Bool :=
  let v := r.toNat
  if v ≤ 0xFF then
    v == 0x09 || v == 0x0A || v == 0x0B || v == 0x0C || v == 0x0D || v == 0x20
      || v == 0x85 || v == 0xA0
  else
    v == 0x1680 || (decide (0x2000 ≤ v) && decide (v ≤ 0x200A)) || v == 0x2028 || v == 0x2029
      || v == 0x202F || v == 0x205F || v == 0x3000

/-- Split the remaining text around runs of runes satisfying `f`; `cur` is the field
being read. An empty field is never produced. -/
def fieldsFrom (f : Char → Bool) : List Char → List Char → List String
  | cur, [] => if cur.isEmpty then [] else [String.mk cur]
  | cur, c :: t =>
    if f c then
      if cur.isEmpty then fieldsFrom f [] t else String.mk cur :: fieldsFrom f [] t
    else fieldsFrom f (cur ++ [c]) t

/-- Model of `strings.Fields`: the maximal runs of non-space runes, in order. -/
def Fields (s : String) : List String := fieldsFrom IsSpace [] s.data

/-- UTF-8 encoding of one rune, as byte values. -/
def utf8EncodeRune (c : Char) : List Nat :=
  let v := c.toNat
  if v < 0x80 then [v]
  else if v < 0x800 then [0xC0 + v / 0x40, 0x80 + v % 0x40]
  else if v < 0x10000 then [0xE0 + v / 0x1000, 0x80 + v / 0x40 % 0x40, 0x80 + v % 0x40]
  else [0xF0 + v / 0x40000, 0x80 + v / 0x1000 % 0x40, 0x80 + v / 0x40 % 0x40, 0x80 + v % 0x40]

/-- The bytes of a string. -/
def bytes (s : String) : List Nat := s.data.flatMap utf8EncodeRune

/-- Lexicographic comparison of byte sequences; a proper prefix is smaller. -/
def bytesLess : List Nat → List Nat → Bool
  | [], [] => false
  | [], _ :: _ => true
  | _ :: _, [] => false
  | a :: as, b :: bs => decide (a < b) || (a == b && bytesLess as bs)

/-- Go's `a < b` on strings: byte-wise lexicographic order. -/
def stringLess (a b : String) : Bool := bytesLess (bytes a) (bytes b)

/-- The order `a <= b` used by the sort: `b < a` does not hold. -/
def StringLE (a b : String) : Prop := stringLess b a = false

instance : DecidableRel StringLE := fun a b => by unfold StringLE; infer_instance

/-- Model of `sort.Strings`: the strings in increasing order. Equal strings are
identical, so every sorting algorithm gives this same list. -/
def sortStrings (l : List String) : List String := l.insertionSort StringLE

/-- The two failure kinds of `strconv` (`ErrSyntax`, `ErrRange`). -/
inductive NumError where
  | ErrSyntax
  | ErrRange
deriving DecidableEq, Repr

/-- Width of `int` in bits. -/
def intSize : Nat := 64

/-- Largest `uint64`. -/
def maxUint64 : Nat := 2 ^ 64 - 1

/-- The digit loop of `strconv.ParseUint` in base 10, with `n` the `uint64`
accumulator: a non-digit is a syntax error with value 0; an overflow of the
accumulator is a range error with value `maxVal`, reported at once. -/
def parseUintLoop (cutoff maxVal : Nat) : List Char → Nat → Nat × Option NumError
  | [], n => (n, none)
  | c :: t, n =>
    if '0'.toNat ≤ c.toNat ∧ c.toNat ≤ '9'.toNat then
      let d := c.toNat - '0'.toNat
      if n ≥ cutoff then (maxVal, some .ErrRange)
      else
        let n := n * 10
        let n1 := (n + d) % 2 ^ 64
        if n1 < n ∨ n1 > maxVal then (maxVal, some .ErrRange)
        else parseUintLoop cutoff maxVal t n1
    else (0, some .ErrSyntax)

/-- Model of `strconv.ParseUint(s, 10, 0)`. -/
def ParseUint (s : List Char) : Nat × Option NumError :=
  if s.isEmpty then (0, some .ErrSyntax)
  else parseUintLoop (maxUint64 / 10 + 1) (2 ^ intSize - 1) s 0

/-- Model of `strconv.ParseInt(s, 10, 0)`: an optional sign, then `ParseUint`; a
magnitude outside the range of `int` gives the nearest bound and a range error. -/
def ParseInt (s : List Char) : Int × Option NumError :=
  if s.isEmpty then (0, some .ErrSyntax)
  else
    let neg := s.head? == some '-'
    let s1 := if s.head? == some '+' ∨ s.head? == some '-' then s.tail else s
    match ParseUint s1 with
    | (_, some .ErrSyntax) => (0, some .ErrSyntax)
    | (un, e) =>
      let cutoff := 2 ^ (intSize - 1)
      if !neg && decide (un ≥ cutoff) then ((cutoff : Int) - 1, some .ErrRange)
      else if neg && decide (un > cutoff) then (-(cutoff : Int), some .ErrRange)
      else (if neg then -(un : Int) else (un : Int), e)

/-- Model of `strconv.Atoi`, which is `ParseInt(s, 10, 0)` converted to `int`; its
shortcut for inputs of fewer than 19 bytes computes the same value. -/
def Atoi (s : String) : Int × Option NumError := ParseInt s.data

/-- Reduction of an integer to the range of `int` (two's complement wrap-around). -/
def wrapInt (x : Int) : Int := (x + 2 ^ (intSize - 1)) % 2 ^ intSize - 2 ^ (intSize - 1)

/-- Model of `strconv.Itoa`: the decimal rendering, with a leading `-` when negative. -/
def Itoa (i : Int) : String :=
  if i < 0 then "-" ++ Nat.repr i.natAbs else Nat.repr i.natAbs

/-! ### `endpoint/handler.go`: port allocation -/

/-- Result of `exec.Command(...).Output()`: the captured standard output and the error. -/
structure CommandResult where
  stdout : String
  err : GoError
deriving DecidableEq, Repr

/-- The first host port handed out. -/
def initHostPort : String := "59000"

/-- Finds the port for the next container, given the result of the `docker ps`
pipeline that lists the published host ports. -/
def nextAvailablePort (portsTaken : CommandResult) : Outcome (String × GoError) :=
  match portsTaken.err with
  | some e => .ret ("", some ("[docker] ps error: " ++ e))
  | none =>
    let ports := Fields portsTaken.stdout
    if ports.length == 0 then .ret (initHostPort, none)
    else
      let ports := sortStrings ports
      match ports[ports.length - 1]? with
      | none => .panic "index out of range"
      | some last =>
        let port := (Atoi last).1
        let port := wrapInt (port + 1)
        .ret (Itoa port, none)

/-! ### Numerals, as the specification words them -/

/-- A decimal digit. -/
def isDigit (c : Char) : Bool := decide ('0'.toNat ≤ c.toNat) && decide (c.toNat ≤ '9'.toNat)

/-- Value of a run of decimal digits read after the value `n`. -/
def digitsValueFrom (n : Nat) (s : List Char) : Nat :=
  s.foldl (fun n c => 10 * n + (c.toNat - '0'.toNat)) n

/-- Value of a run of decimal digits. -/
def digitsValue (s : List Char) : Nat := digitsValueFrom 0 s

/-- A non-empty run of decimal digits. -/
def isDigits (s : List Char) : Bool := !s.isEmpty && s.all isDigit

/-- The integer a token denotes: an optional sign followed by a non-empty run of
decimal digits; `none` when the token is not of this form. -/
def parseInteger (t : String) : Option Int :=
  if t.data.head? = some '-' then
    if isDigits t.data.tail then some (-(digitsValue t.data.tail : Int)) else none
  else if t.data.head? = some '+' then
    if isDigits t.data.tail then some (digitsValue t.data.tail : Int) else none
  else
    if isDigits t.data then some (digitsValue t.data : Int) else none

/-- The numeric maximum of a list of digit tokens (0 for the empty list). -/
def numericMax (ports : List String) : Nat :=
  (ports.map fun p => digitsValue p.data).foldr max 0

/-- The decimal digits a token starts with, after an optional sign. -/
def leadingDigits (t : String) : List Char :=
  (if t.data.head? = some '+' ∨ t.data.head? = some '-' then t.data.tail
    else t.data).takeWhile isDigit

/-! ### `crypto/x509`, `crypto/tls`: the parts the policy reads -/

/-- The signature algorithms of `x509.SignatureAlgorithm`. -/
inductive SignatureAlgorithm where
  | UnknownSignatureAlgorithm
  | MD2WithRSA
  | MD5WithRSA
  | SHA1WithRSA
  | SHA256WithRSA
  | SHA384WithRSA
  | SHA512WithRSA
  | DSAWithSHA1
  | DSAWithSHA256
  | ECDSAWithSHA1
  | ECDSAWithSHA256
  | ECDSAWithSHA384
  | ECDSAWithSHA512
  | SHA256WithRSAPSS
  | SHA384WithRSAPSS
  | SHA512WithRSAPSS
  | PureEd25519
deriving DecidableEq, Repr

/-- Model of `SignatureAlgorithm.String`: the name of the algorithm, or its number
when it has no name. -/
def SignatureAlgorithm.String : SignatureAlgorithm → String
  | .UnknownSignatureAlgorithm => "0"
  | .MD2WithRSA => "MD2-RSA"
  | .MD5WithRSA => "MD5-RSA"
  | .SHA1WithRSA => "SHA1-RSA"
  | .SHA256WithRSA => "SHA256-RSA"
  | .SHA384WithRSA => "SHA384-RSA"
  | .SHA512WithRSA => "SHA512-RSA"
  | .DSAWithSHA1 => "DSA-SHA1"
  | .DSAWithSHA256 => "DSA-SHA256"
  | .ECDSAWithSHA1 => "ECDSA-SHA1"
  | .ECDSAWithSHA256 => "ECDSA-SHA256"
  | .ECDSAWithSHA384 => "ECDSA-SHA384"
  | .ECDSAWithSHA512 => "ECDSA-SHA512"
  | .SHA256WithRSAPSS => "SHA256-RSAPSS"
  | .SHA384WithRSAPSS => "SHA384-RSAPSS"
  | .SHA512WithRSAPSS => "SHA512-RSAPSS"
  | .PureEd25519 => "Ed25519"

/-- The parsed certificate (`x509.Certificate`): the field the policy reads. -/
structure X509Certificate where
  SignatureAlgorithm : SignatureAlgorithm
deriving DecidableEq, Repr

/-- A DER-encoded certificate: a byte string. -/
abbrev DER := List Nat

/-- Result of `x509.ParseCertificate`. -/
inductive ParseResult where
  | ok (c : X509Certificate)
  | error (msg : String)
deriving DecidableEq, Repr

/-- Dynamic type of the `crypto.PrivateKey` held by a certificate: no key, an RSA
key with public modulus `N`, or a key of another family. -/
inductive PrivateKey where
  | nil
  | rsa (N : Int)
  | ecdsa
  | ed25519
deriving DecidableEq, Repr

/-- The certificate chain with its private key (`tls.Certificate`): the leaf comes
first in `Certificate`. -/
structure TLSCertificate where
  Certificate : List DER
  PrivateKey : PrivateKey
deriving DecidableEq, Repr

/-- The zero value `tls.Certificate{}`. -/
def TLSCertificate.empty : TLSCertificate := ⟨[], .nil⟩

/-- Model of `(*big.Int).BitLen`: the length in bits of the absolute value; 0 for 0. -/
def BitLen (x : Int) : Nat := Nat.size x.natAbs

/-! ### `security/cryptography.go` -/

/-- Minimum length of an RSA modulus, in bits. -/
def minRSABitModulus : Nat := 2048

/-- Text of the error for a key that is not an RSA key. -/
def errorUnsupportedSignature : String :=
  "unsupported private key signature, only RSA is valid"

/-- Identifies the kind of the private key. Only RSA keys are acceptable. -/
def validateSignatureMethod (cert : TLSCertificate) : GoError :=
  match cert.PrivateKey with
  | .rsa _ => none
  | _ => some errorUnsupportedSignature

/-- Evaluates the size of the private key. Expected length: 2048 bits or more. -/
def validateCertBitLength (cert : TLSCertificate) : GoError :=
  match cert.PrivateKey with
  | .rsa N =>
    let len := BitLen N
    if len < minRSABitModulus then
      some ("Validating certificate length, expected " ++ Itoa minRSABitModulus
        ++ " bits but the key is " ++ Itoa len)
    else
      none
  | _ => some errorUnsupportedSignature

/-- Identifies the hash function used by the signature of the leaf certificate.
`ParseCertificate` stands for `x509.ParseCertificate`; reading the leaf of an empty
chain is an index panic. -/
def validateSignatureHashAlgorithm (ParseCertificate : DER → ParseResult)
    (cert : TLSCertificate) : Outcome GoError :=
  match cert.Certificate with
  | [] => .panic "index out of range [0] with length 0"
  | leaf :: _ =>
    match ParseCertificate leaf with
    | .error err => .ret (some err)
    | .ok c =>
      let signature := c.SignatureAlgorithm
      if signature = .SHA256WithRSA ∨ signature = .SHA384WithRSA
          ∨ signature = .SHA512WithRSA then
        .ret none
      else
        .ret (some ("x509: " ++ signature.String
          ++ " is an unsupported signature hash algorithm"))

/-- Validates that the certificate meets all the cryptographic requirements. -/
def meetCryptoRequirements (ParseCertificate : DER → ParseResult)
    (cert : TLSCertificate) : Outcome GoError :=
  match validateSignatureMethod cert with
  | some err => .ret (some err)
  | none =>
    match validateCertBitLength cert with
    | some err => .ret (some err)
    | none =>
      match validateSignatureHashAlgorithm ParseCertificate cert with
      | .panic r => .panic r
      | .ret (some err) => .ret (some err)
      | .ret none => .ret none

/-- Generates the TLS certificate from a pair of PEM files. `LoadX509KeyPair` stands
for `tls.LoadX509KeyPair`. -/
def GetCertificateChain (LoadX509KeyPair : String → String → TLSCertificate × GoError)
    (ParseCertificate : DER → ParseResult) (certFile keyFile : String) :
    Outcome (TLSCertificate × GoError) :=
  match LoadX509KeyPair certFile keyFile with
  | (_, some err) => .ret (TLSCertificate.empty, some err)
  | (cert, none) =>
    match meetCryptoRequirements ParseCertificate cert with
    | .panic r => .panic r
    | .ret (some err) => .ret (TLSCertificate.empty, some err)
    | .ret none => .ret (cert, none)

/-- The fields of `tls.Config` the broker touches; `others` holds all the remaining
fields. -/
structure Config (ρ : Type) where
  Certificates : List TLSCertificate
  CipherSuites : List Nat
  PreferServerCipherSuites : Bool
  others : ρ

/-- Cipher suite identifier `0xc030`. -/
def TLS_ECDHE_RSA_WITH_AES_256_GCM_SHA384 : Nat := 0xc030

/-- Cipher suite identifier `0xc02f`. -/
def TLS_ECDHE_RSA_WITH_AES_128_GCM_SHA256 : Nat := 0xc02f

/-- Cipher suite identifier `0xc027`. -/
def TLS_ECDHE_RSA_WITH_AES_128_CBC_SHA256 : Nat := 0xc027

/-- Cipher suite identifier `0x003c`. -/
def TLS_RSA_WITH_AES_128_CBC_SHA256 : Nat := 0x003c

/-- Cipher suite identifier `0x009d`. -/
def TLS_RSA_WITH_AES_256_GCM_SHA384 : Nat := 0x009d

/-- Cipher suite identifier `0x009c`. -/
def TLS_RSA_WITH_AES_128_GCM_SHA256 : Nat := 0x009c

/-- Sets the cipher suite list and the server preference of the configuration the
pointer refers to; the result is the configuration after the call. -/
def SetCipherSuites {ρ : Type} (config : Config ρ) : Config ρ :=
  { config with
    CipherSuites := [TLS_ECDHE_RSA_WITH_AES_256_GCM_SHA384,
      TLS_ECDHE_RSA_WITH_AES_128_GCM_SHA256,
      TLS_ECDHE_RSA_WITH_AES_128_CBC_SHA256,
      TLS_RSA_WITH_AES_128_CBC_SHA256,
      TLS_RSA_WITH_AES_256_GCM_SHA384,
      TLS_RSA_WITH_AES_128_GCM_SHA256],
    PreferServerCipherSuites := true }

/-- The configuration `main` builds: the composite literal with only `Certificates`
set (`zero` is the zero value of the other fields), then `SetCipherSuites`. -/
def mainTLSConfig {ρ : Type} (zero : ρ) (cert : TLSCertificate) : Config ρ :=
  SetCipherSuites
    { Certificates := [cert]
      CipherSuites := []
      PreferServerCipherSuites := false
      others := zero }

/-! ### Digests, as the specification words them -/

/-- The hash functions a signature algorithm may use as its digest. -/
inductive Hash where
  | MD2
  | MD5
  | SHA1
  | SHA256
  | SHA384
  | SHA512
deriving DecidableEq, Repr

/-- The digest a signature algorithm applies to the signed data; `none` for the
unknown algorithm and for Ed25519, which signs the data itself. -/
def SignatureAlgorithm.digest : SignatureAlgorithm → Option Hash
  | .UnknownSignatureAlgorithm => none
  | .MD2WithRSA => some .MD2
  | .MD5WithRSA => some .MD5
  | .SHA1WithRSA => some .SHA1
  | .SHA256WithRSA => some .SHA256
  | .SHA384WithRSA => some .SHA384
  | .SHA512WithRSA => some .SHA512
  | .DSAWithSHA1 => some .SHA1
  | .DSAWithSHA256 => some .SHA256
  | .ECDSAWithSHA1 => some .SHA1
  | .ECDSAWithSHA256 => some .SHA256
  | .ECDSAWithSHA384 => some .SHA384
  | .ECDSAWithSHA512 => some .SHA512
  | .SHA256WithRSAPSS => some .SHA256
  | .SHA384WithRSAPSS => some .SHA384
  | .SHA512WithRSAPSS => some .SHA512
  | .PureEd25519 => none

/-! ### `encoding/json`: what the handlers write and read -/

/-- Error response of the broker (`model.ErrorResponse`). -/
structure ErrorResponse where
  Description : String
deriving DecidableEq, Repr

/-- Response of a provision call (`model.ProvisionResponse`). -/
structure ProvisionResponse where
  DashboardURL : String
  Operation : String
deriving DecidableEq, Repr

/-- Response of a deprovision call (`model.DeprovisionResponse`). -/
structure DeprovisionResponse where
  Operation : String
deriving DecidableEq, Repr

/-- Credentials handed out by a bind call (`model.Credentials`). -/
structure Credentials where
  ConnectionString : String
  UserName : String
  Password : String
  Hostname : String
  DatabaseName : String
deriving DecidableEq, Repr

/-- Response of a bind call (`model.BindResponse`). -/
structure BindResponse where
  Credentials : Credentials
deriving DecidableEq, Repr

/-- The values the handlers pass to `writeResponse` as `interface{}`: one of the
response structures, or a Go string. -/
inductive ResponseObject where
  | errorResponse (r : ErrorResponse)
  | provisionResponse (r : ProvisionResponse)
  | deprovisionResponse (r : DeprovisionResponse)
  | bindResponse (r : BindResponse)
  | text (s : String)
deriving DecidableEq, Repr

/-- Lowercase hexadecimal digit of a value below 16. -/
def hexDigit (n : Nat) : Char := "0123456789abcdef".data.getD n '0'

/-- The JSON text `encoding/json` writes for one rune of a string, with the HTML
escaping that `json.Marshal` applies. The control characters other than newline,
carriage return and tab are written `\u00XX`, as the Go releases of the time of the
broker do. -/
def encodeRune (c : Char) : List Char :=
  let v := c.toNat
  if c = '"' then ['\\', '"']
  else if c = '\\' then ['\\', '\\']
  else if c = '\n' then ['\\', 'n']
  else if c = '\r' then ['\\', 'r']
  else if c = '\t' then ['\\', 't']
  else if v < 0x20 ∨ c = '<' ∨ c = '>' ∨ c = '&' then
    ['\\', 'u', '0', '0', hexDigit (v / 16), hexDigit (v % 16)]
  else if v = 0x2028 ∨ v = 0x2029 then
    ['\\', 'u', '2', '0', '2', hexDigit (v % 16)]
  else [c]

/-- The JSON string literal for a Go string: the escaped runes between double quotes. -/
def encodeString (s : String) : String :=
  "\"" ++ String.mk (s.data.flatMap encodeRune) ++ "\""

/-- The JSON text of a response value. A structure becomes an object whose keys are
the names given in the `json` tags of its fields; a Go string becomes a JSON string. -/
def encode : ResponseObject → String
  | .errorResponse r => "\x7b\"description\":" ++ encodeString r.Description ++ "\x7d"
  | .provisionResponse r =>
    "\x7b\"dashboard_url\":" ++ encodeString r.DashboardURL
      ++ ",\"operation\":" ++ encodeString r.Operation ++ "\x7d"
  | .deprovisionResponse r => "\x7b\"operation\":" ++ encodeString r.Operation ++ "\x7d"
  | .bindResponse r =>
    "\x7b\"credentials\":\x7b\"connection_string\":"
      ++ encodeString r.Credentials.ConnectionString
      ++ ",\"username\":" ++ encodeString r.Credentials.UserName
      ++ ",\"password\":" ++ encodeString r.Credentials.Password
      ++ ",\"hostname\":" ++ encodeString r.Credentials.Hostname
      ++ ",\"database_name\":" ++ encodeString r.Credentials.DatabaseName ++ "\x7d\x7d"
  | .text s => encodeString s

/-- Model of `json.Marshal` on the response values: the encoded text and a nil
error, since none of these types can fail to encode. -/
def Marshal (object : ResponseObject) : String × GoError := (encode object, none)

/-- The error `(*json.Decoder).Decode` returned: nil, `io.EOF`, or another error. -/
inductive DecodeError where
  | nil
  | EOF
  | other (msg : String)
deriving DecidableEq, Repr

/-- What `json.NewDecoder(r.Body).Decode(&body)` leaves behind: the body pointer and
the error. An empty request body gives `io.EOF` and a nil pointer; text that is not
JSON or is cut short gives another error and a nil pointer; the JSON value `null`
gives no error and a nil pointer; a JSON object gives a pointer to the decoded
structure, and a JSON value of another kind an error and a pointer to an empty
structure. -/
structure Decoded (β : Type) where
  body : Option β
  bodyErr : DecodeError
deriving DecidableEq, Repr

/-! ### `endpoint/handler.go`: the handlers -/

/-- Description of every failed provisioning. -/
def provisionError : String := "Error creating the database service."

/-- Description of every failed deprovisioning. -/
def deprovisionError : String := "Error deleting the database service."

/-- Description of the answer to a request without a body. -/
def errorEmptyBodyRequest : String := "Please send a request body."

/-- The status `http.StatusOK`. -/
def StatusOK : Nat := 200

/-- The status `http.StatusCreated`. -/
def StatusCreated : Nat := 201

/-- The status `http.StatusBadRequest`. -/
def StatusBadRequest : Nat := 400

/-- The status `http.StatusInternalServerError`. -/
def StatusInternalServerError : Nat := 500

/-- What a handler wrote to the `http.ResponseWriter`: the status code and the body. -/
structure Response where
  code : Nat
  body : String
deriving DecidableEq, Repr

/-- The run of a handler: the commands it started on the host, in order, each as
its argument vector, and the response it wrote, or the panic that ended it. The
server recovers a panic of a handler by closing the connection: no response is
written. -/
structure Handled where
  commands : List (List String)
  response : Outcome Response
deriving DecidableEq, Repr

/-- Builds the response from the status code and the value, encoded as JSON. -/
def writeResponse (code : Nat) (object : ResponseObject) : Response :=
  match Marshal object with
  | (_, some _) => ⟨StatusInternalServerError, ""⟩
  | (data, none) => ⟨code, data⟩

/-- The command `nextAvailablePort` runs to list the published host ports. -/
def portsQuery : List String :=
  ["bash", "-c",
    "docker ps --format \x27\x7b\x7b.Ports\x7d\x7d\x27 | grep -oE \x27:[^-]+\x27 | cut -c2-"]

/-- The command `Provision` runs to create the container. -/
def runCommand (instanceID port : String) : List String :=
  ["docker", "run", "-d", "--name", "cf-mongo-" ++ instanceID, "-p", port ++ ":27017", "mongo"]

/-- The command `Deprovision` runs to remove the container. -/
def rmCommand (instanceID : String) : List String :=
  ["docker", "rm", "-f", "cf-mongo-" ++ instanceID]

/-- Starts the creation of the database service. `runtime` gives the result of each
command run on the host, `instanceID` is the path variable and `decoded` the outcome
of decoding the request body. -/
def Provision (runtime : List String → CommandResult) (instanceID : String)
    (decoded : Decoded ProvisionBody) : Handled :=
  match decoded.bodyErr with
  | .EOF =>
    ⟨[], .ret (writeResponse StatusBadRequest (.errorResponse ⟨errorEmptyBodyRequest⟩))⟩
  | _ =>
    match validateProvisionInputs decoded.body instanceID with
    | .panic reason => ⟨[], .panic reason⟩
    | .ret (some err) => ⟨[], .ret (writeResponse StatusBadRequest (.errorResponse ⟨err⟩))⟩
    | .ret none =>
      match nextAvailablePort (runtime portsQuery) with
      | .panic reason => ⟨[portsQuery], .panic reason⟩
      | .ret (_, some _) =>
        ⟨[portsQuery],
          .ret (writeResponse StatusInternalServerError (.errorResponse ⟨provisionError⟩))⟩
      | .ret (port, none) =>
        match (runtime (runCommand instanceID port)).err with
        | some _ =>
          ⟨[portsQuery, runCommand instanceID port],
            .ret (writeResponse StatusInternalServerError (.errorResponse ⟨provisionError⟩))⟩
        | none =>
          ⟨[portsQuery, runCommand instanceID port],
            .ret (writeResponse StatusCreated
              (.provisionResponse ⟨"https://dashboard.example.com", "task_01"⟩))⟩

/-- Associates the database service with an application. -/
def Bind (instanceID bindingID : String) (decoded : Decoded BindBody) : Handled :=
  match decoded.bodyErr with
  | .EOF =>
    ⟨[], .ret (writeResponse StatusBadRequest (.errorResponse ⟨errorEmptyBodyRequest⟩))⟩
  | _ =>
    match validateBindInputs decoded.body instanceID bindingID with
    | .panic reason => ⟨[], .panic reason⟩
    | .ret (some err) => ⟨[], .ret (writeResponse StatusBadRequest (.errorResponse ⟨err⟩))⟩
    | .ret none =>
      match decoded.body with
      | none => ⟨[], .panic "invalid memory address or nil pointer dereference"⟩
      | some body =>
        ⟨[], .ret (writeResponse StatusCreated (.bindResponse ⟨
          { ConnectionString := "MONGO_URL=mongodb://" ++ body.Database.UserName ++ ":"
              ++ body.Database.Password ++ "@HOSTNAME:27017/" ++ body.Database.Name
            UserName := body.Database.UserName
            Password := body.Database.Password
            Hostname := ""
            DatabaseName := body.Database.Name }⟩))⟩

/-- Deletes the resources associated with the binding. -/
def UnBind (instanceID bindingID serviceID planID : String) : Handled :=
  match validateUnBindInputs instanceID bindingID serviceID planID with
  | some err => ⟨[], .ret (writeResponse StatusBadRequest (.errorResponse ⟨err⟩))⟩
  | none => ⟨[], .ret (writeResponse StatusOK (.text "\x7b\x7d"))⟩

/-- Destroys the container where the database service is running. -/
def Deprovision (runtime : List String → CommandResult)
    (instanceID serviceID planID : String) : Handled :=
  match validateDeprovisionInputs instanceID serviceID planID with
  | some err => ⟨[], .ret (writeResponse StatusBadRequest (.errorResponse ⟨err⟩))⟩
  | none =>
    match (runtime (rmCommand instanceID)).err with
    | some _ =>
      ⟨[rmCommand instanceID],
        .ret (writeResponse StatusInternalServerError (.errorResponse ⟨deprovisionError⟩))⟩
    | none =>
      ⟨[rmCommand instanceID],
        .ret (writeResponse StatusOK (.deprovisionResponse ⟨"task_01"⟩))⟩

/-! ## Part 2: lemmas and theorems -/

/-! ### The UUID pattern -/

theorem iterate_charClass (rs : List (Char × Char)) (n : Nat) :
    ∀ (pos : Nat) (s : List Char) (k : Nat → List Char → Bool),
      iterate (matchHere (.charClass rs)) n pos s k
        = (decide (n ≤ s.length) && (s.take n).all (inRanges rs) && k (pos + n) (s.drop n)) := by
  induction n with
  | zero => intro pos s k; simp [iterate]
  | succ n ih =>
    intro pos s k
    cases s with
    | nil => simp [iterate, matchHere]
    | cons x t =>
      rw [iterate, matchHere, ih]
      simp only [List.length_cons, List.take_succ_cons, List.all_cons, List.drop_succ_cons,
        Nat.add_le_add_iff_right]
      rw [show pos + 1 + n = pos + (n + 1) by omega]
      cases inRanges rs x <;> simp

theorem matchHere_literal (c : Char) (pos : Nat) (s : List Char)
    (k : Nat → List Char → Bool) :
    matchHere (.literal c) pos s k
      = (decide (1 ≤ s.length) && (s.take 1).all (fun x => x == c)
          && k (pos + 1) (s.drop 1)) := by
  cases s with
  | nil => simp [matchHere]
  | cons x t => simp [matchHere]

theorem all_take_drop (p : Char → Bool) (n m : Nat) (s : List Char) :
    ((s.drop m).take n).all p = true ↔
      ∀ (i : Nat) (c : Char), m ≤ i → i < m + n → s[i]? = some c → p c = true := by
  rw [List.all_eq_true]
  constructor
  · intro h i c h1 h2 hc
    apply h
    rw [List.mem_iff_getElem?]
    refine ⟨i - m, ?_⟩
    rw [List.getElem?_take_of_lt (by omega), List.getElem?_drop]
    rw [show m + (i - m) = i by omega]; exact hc
  · intro h c hc
    rw [List.mem_iff_getElem?] at hc
    obtain ⟨j, hj⟩ := hc
    have hjn : j < n := by
      by_contra hcon
      rw [List.getElem?_take_eq_none (by omega)] at hj
      cases hj
    rw [List.getElem?_take_of_lt hjn, List.getElem?_drop] at hj
    exact h (m + j) c (by omega) (by omega) hj

theorem matchHere_concat (a b : Regexp) (pos : Nat) (s : List Char)
    (k : Nat → List Char → Bool) :
    matchHere (.concat a b) pos s k = matchHere a pos s (fun p t => matchHere b p t k) := rfl

theorem matchHere_beginText (pos : Nat) (s : List Char) (k : Nat → List Char → Bool) :
    matchHere .beginText pos s k = (pos == 0 && k pos s) := rfl

theorem matchHere_endText (pos : Nat) (s : List Char) (k : Nat → List Char → Bool) :
    matchHere .endText pos s k = (s.isEmpty && k pos s) := rfl

theorem matchHere_repeat_charClass (rs : List (Char × Char)) (n pos : Nat) (s : List Char)
    (k : Nat → List Char → Bool) :
    matchHere (.repeatN (.charClass rs) n) pos s k
      = (decide (n ≤ s.length) && ((s.drop 0).take n).all (inRanges rs)
          && k (pos + n) (s.drop n)) := by
  rw [matchHere, iterate_charClass]; simp

theorem searchFrom_UUID_pos (t : List Char) :
    ∀ pos, 0 < pos → searchFrom UUID pos t = false := by
  induction t with
  | nil =>
    intro pos h
    simp only [searchFrom, UUID, Regexp.seq, matchHere_concat, matchHere_beginText]
    simp; omega
  | cons c t ih =>
    intro pos h
    simp only [searchFrom, ih (pos + 1) (by omega), Bool.or_false]
    simp only [searchFrom, UUID, Regexp.seq, matchHere_concat, matchHere_beginText]
    simp; omega

theorem isUUID_eq (s : String) :
    isUUID s = matchHere UUID 0 s.data (fun _ _ => true) := by
  unfold isUUID MatchString
  cases s.data with
  | nil => rfl
  | cons c t => simp [searchFrom, searchFrom_UUID_pos]

theorem inRanges_hex (c : Char) :
    inRanges [('0', '9'), ('a', 'f')] c = true ↔ isLowerHexDigit c := by
  simp [inRanges, isLowerHexDigit]

theorem isUUID_iff_canonical (s : String) : isUUID s = true ↔ CanonicalUUID s := by
  rw [isUUID_eq]
  simp only [UUID, Regexp.seq, hexClass, matchHere_concat, matchHere_beginText, matchHere_endText,
    matchHere_repeat_charClass, matchHere_literal]
  simp only [List.drop_drop, List.length_drop, Bool.and_eq_true, decide_eq_true_eq, Bool.and_true,
    beq_self_eq_true, true_and, List.isEmpty_iff, Nat.reduceAdd, all_take_drop,
    List.drop_eq_nil_iff, inRanges_hex, beq_iff_eq]
  unfold CanonicalUUID
  have hlen : s.length = s.data.length := rfl
  rw [hlen]
  constructor
  · rintro ⟨⟨h1, H1⟩, ⟨h2, D1⟩, ⟨h3, H2⟩, ⟨h4, D2⟩, ⟨h5, H3⟩, ⟨h6, D3⟩, ⟨h7, H4⟩, ⟨h8, D4⟩,
      ⟨h9, H5⟩, h10⟩
    refine ⟨by omega, fun i c hc => ?_⟩
    have hi : i < s.data.length := by
      by_contra hcon
      rw [List.getElem?_eq_none (by omega)] at hc
      cases hc
    split_ifs with hmem
    · simp only [hyphenPositions, List.mem_cons, List.mem_singleton, List.not_mem_nil,
        or_false] at hmem
      rcases hmem with rfl | rfl | rfl | rfl
      · exact D1 _ c (by omega) (by omega) hc
      · exact D2 _ c (by omega) (by omega) hc
      · exact D3 _ c (by omega) (by omega) hc
      · exact D4 _ c (by omega) (by omega) hc
    · simp only [hyphenPositions, List.mem_cons, List.mem_singleton, List.not_mem_nil,
        or_false, not_or] at hmem
      have hcases : i < 8 ∨ (9 ≤ i ∧ i < 13) ∨ (14 ≤ i ∧ i < 18) ∨ (19 ≤ i ∧ i < 23)
          ∨ (24 ≤ i ∧ i < 36) := by omega
      rcases hcases with h | h | h | h | h
      · exact H1 i c (by omega) (by omega) hc
      · exact H2 i c (by omega) (by omega) hc
      · exact H3 i c (by omega) (by omega) hc
      · exact H4 i c (by omega) (by omega) hc
      · exact H5 i c (by omega) (by omega) hc
  · rintro ⟨hl, H⟩
    have hyp : ∀ i c, i ∈ hyphenPositions → s.data[i]? = some c → c = '-' := by
      intro i c hi hc
      have := H i c hc
      rwa [if_pos hi] at this
    have hex : ∀ i c, i ∉ hyphenPositions → s.data[i]? = some c → isLowerHexDigit c := by
      intro i c hi hc
      have := H i c hc
      rwa [if_neg hi] at this
    have nmem : ∀ i, i ≠ 8 → i ≠ 13 → i ≠ 18 → i ≠ 23 → i ∉ hyphenPositions := by
      intro i a b c d
      simp [hyphenPositions, a, b, c, d]
    have hexIn : ∀ lo hi i c, (lo = 0 ∨ lo = 9 ∨ lo = 14 ∨ lo = 19 ∨ lo = 24) →
        (hi = lo + 4 ∨ (lo = 0 ∧ hi = 8) ∨ (lo = 24 ∧ hi = 36)) → lo ≤ i → i < hi →
        s.data[i]? = some c → isLowerHexDigit c := by
      intro lo hi i c hlo hhi a b hc
      exact hex i c (nmem i (by omega) (by omega) (by omega) (by omega)) hc
    refine ⟨⟨by omega, fun i c a b hc => hexIn 0 8 i c (by omega) (by omega) a b hc⟩,
      ⟨by omega, fun i c a b hc => hyp i c ?_ hc⟩,
      ⟨by omega, fun i c a b hc => hexIn 9 13 i c (by omega) (by omega) a b hc⟩,
      ⟨by omega, fun i c a b hc => hyp i c ?_ hc⟩,
      ⟨by omega, fun i c a b hc => hexIn 14 18 i c (by omega) (by omega) a b hc⟩,
      ⟨by omega, fun i c a b hc => hyp i c ?_ hc⟩,
      ⟨by omega, fun i c a b hc => hexIn 19 23 i c (by omega) (by omega) a b hc⟩,
      ⟨by omega, fun i c a b hc => hyp i c ?_ hc⟩,
      ⟨by omega, fun i c a b hc => hexIn 24 36 i c (by omega) (by omega) a b hc⟩,
      by omega⟩
    · have : i = 8 := by omega
      subst this; simp [hyphenPositions]
    · have : i = 13 := by omega
      subst this; simp [hyphenPositions]
    · have : i = 18 := by omega
      subst this; simp [hyphenPositions]
    · have : i = 23 := by omega
      subst this; simp [hyphenPositions]

/-! ### Validators -/

theorem isNull_iff (s : String) : isNull s = true ↔ s = "" := by
  cases s with
  | mk l =>
    cases l with
    | nil => simp [isNull]
    | cons c t =>
      simp only [isNull, String.length, List.length_cons, beq_iff_eq, Nat.add_one_ne_zero,
        false_iff]
      intro h
      have := congrArg String.data h
      simp at this

theorem isNull_false_iff (s : String) : isNull s = false ↔ s ≠ "" := by
  rw [Ne, ← isNull_iff]; simp

theorem isUUID_false_iff (s : String) : isUUID s = false ↔ ¬ CanonicalUUID s := by
  rw [← isUUID_iff_canonical]; simp

theorem CanonicalUUID.ne_empty {s : String} (h : CanonicalUUID s) : s ≠ "" := by
  intro he
  have := h.1
  rw [he] at this
  simp at this

theorem isUUID_length {s : String} (h : isUUID s = true) : s.length = 36 :=
  ((isUUID_iff_canonical s).mp h).1

theorem isUUID_chars {s : String} (h : isUUID s = true) (c : Char) (hc : c ∈ s.data) :
    c = '-' ∨ isLowerHexDigit c := by
  obtain ⟨i, hi⟩ := List.mem_iff_getElem?.mp hc
  have := ((isUUID_iff_canonical s).mp h).2 i c hi
  split_ifs at this
  · exact Or.inl this
  · exact Or.inr this

/-- C1. Each of the four validators reports the missing-field error (`nullError`),
and therefore never the malformed-identifier error, as soon as one required field is
the empty string, whatever the other fields contain. For bind the required fields
include the database name, user name and password. The requests of provision and
bind are those that carry a body, whose fields are read. -/
theorem missing_field_takes_precedence :
    (∀ (body : ProvisionBody) (instanceID : String),
      (body.ServiceID = "" ∨ body.PlanID = "" ∨ body.OrganizationID = "" ∨ body.SpaceID = ""
        ∨ instanceID = "") →
      validateProvisionInputs (some body) instanceID = .ret (some nullError)) ∧
    (∀ (instanceID serviceID planID : String),
      (instanceID = "" ∨ serviceID = "" ∨ planID = "") →
      validateDeprovisionInputs instanceID serviceID planID = some nullError) ∧
    (∀ (body : BindBody) (instanceID bindingID : String),
      (body.ServiceID = "" ∨ body.PlanID = "" ∨ body.Database.Name = ""
        ∨ body.Database.UserName = "" ∨ body.Database.Password = ""
        ∨ instanceID = "" ∨ bindingID = "") →
      validateBindInputs (some body) instanceID bindingID = .ret (some nullError)) ∧
    (∀ (instanceID bindingID serviceID planID : String),
      (instanceID = "" ∨ bindingID = "" ∨ serviceID = "" ∨ planID = "") →
      validateUnBindInputs instanceID bindingID serviceID planID = some nullError) ∧
    nullError ≠ notValidUUID := by
  refine ⟨?_, ?_, ?_, ?_, by decide⟩
  · intro body instanceID h
    have hc : (isNull body.ServiceID || isNull body.PlanID || isNull body.OrganizationID
        || isNull body.SpaceID || isNull instanceID) = true := by
      simp only [Bool.or_eq_true, isNull_iff]; tauto
    simp only [validateProvisionInputs, hc, if_true]
  · intro instanceID serviceID planID h
    have hc : (isNull instanceID || isNull serviceID || isNull planID) = true := by
      simp only [Bool.or_eq_true, isNull_iff]; tauto
    simp only [validateDeprovisionInputs, hc, if_true]
  · intro body instanceID bindingID h
    have hc : (isNull body.ServiceID || isNull body.PlanID || isNull body.Database.Name
        || isNull body.Database.UserName || isNull body.Database.Password
        || isNull instanceID || isNull bindingID) = true := by
      simp only [Bool.or_eq_true, isNull_iff]; tauto
    simp only [validateBindInputs, hc, if_true]
  · intro instanceID bindingID serviceID planID h
    have hc : (isNull instanceID || isNull bindingID || isNull serviceID || isNull planID)
        = true := by
      simp only [Bool.or_eq_true, isNull_iff]; tauto
    simp only [validateUnBindInputs, hc, if_true]

/-- Witness for C1: every validator at an input with one empty field and the other
identifiers malformed. -/
theorem missing_field_takes_precedence_witness :
    validateProvisionInputs (some ⟨"", "not-a-uuid", "XYZ", "?"⟩) "also bad"
        = .ret (some nullError) ∧
      validateDeprovisionInputs "not-a-uuid" "" "XYZ" = some nullError ∧
      validateBindInputs (some ⟨"not-a-uuid", "XYZ", ⟨"db", "", "secret"⟩⟩) "bad" "worse"
        = .ret (some nullError) ∧
      validateUnBindInputs "not-a-uuid" "XYZ" "?" "" = some nullError :=
  ⟨missing_field_takes_precedence.1 ⟨"", "not-a-uuid", "XYZ", "?"⟩ "also bad" (Or.inl rfl),
    missing_field_takes_precedence.2.1 "not-a-uuid" "" "XYZ" (Or.inr (Or.inl rfl)),
    missing_field_takes_precedence.2.2.1 ⟨"not-a-uuid", "XYZ", ⟨"db", "", "secret"⟩⟩ "bad" "worse"
      (Or.inr (Or.inr (Or.inr (Or.inl rfl)))),
    missing_field_takes_precedence.2.2.2.1 "not-a-uuid" "XYZ" "?" ""
      (Or.inr (Or.inr (Or.inr rfl)))⟩

theorem validateProvisionInputs_accept (body : ProvisionBody) (instanceID : String)
    (hall : CanonicalUUID body.ServiceID ∧ CanonicalUUID body.PlanID
      ∧ CanonicalUUID body.OrganizationID ∧ CanonicalUUID body.SpaceID
      ∧ CanonicalUUID instanceID) :
    validateProvisionInputs (some body) instanceID = .ret none := by
  obtain ⟨a, b, c, d, e⟩ := hall
  have hc : (isNull body.ServiceID || isNull body.PlanID || isNull body.OrganizationID
      || isNull body.SpaceID || isNull instanceID) = false := by
    simp only [Bool.or_eq_false_iff, isNull_false_iff]
    exact ⟨⟨⟨⟨a.ne_empty, b.ne_empty⟩, c.ne_empty⟩, d.ne_empty⟩, e.ne_empty⟩
  simp [validateProvisionInputs, hc, (isUUID_iff_canonical _).mpr a,
    (isUUID_iff_canonical _).mpr b, (isUUID_iff_canonical _).mpr c,
    (isUUID_iff_canonical _).mpr d, (isUUID_iff_canonical _).mpr e]

theorem validateProvisionInputs_reject (body : ProvisionBody) (instanceID : String)
    (h₁ : body.ServiceID ≠ "") (h₂ : body.PlanID ≠ "") (h₃ : body.OrganizationID ≠ "")
    (h₄ : body.SpaceID ≠ "") (h₅ : instanceID ≠ "")
    (hall : ¬ (CanonicalUUID body.ServiceID ∧ CanonicalUUID body.PlanID
      ∧ CanonicalUUID body.OrganizationID ∧ CanonicalUUID body.SpaceID
      ∧ CanonicalUUID instanceID)) :
    validateProvisionInputs (some body) instanceID = .ret (some notValidUUID) := by
  have hc : (isNull body.ServiceID || isNull body.PlanID || isNull body.OrganizationID
      || isNull body.SpaceID || isNull instanceID) = false := by
    simp only [Bool.or_eq_false_iff, isNull_false_iff]; tauto
  have hb : (!isUUID body.ServiceID || !isUUID body.PlanID || !isUUID body.OrganizationID
      || !isUUID body.SpaceID || !isUUID instanceID) = true := by
    simp only [Bool.or_eq_true, Bool.not_eq_true', isUUID_false_iff]
    tauto
  simp only [validateProvisionInputs, hc, hb, Bool.false_eq_true, if_false, if_true]

/-- C2. When the five fields of a provision input are all non-empty,
`validateProvisionInputs` returns `nil` exactly when all five are canonical UUIDs and
returns the `notValidUUID` error otherwise; in particular, putting a non-empty
non-UUID string in place of any one field of a well-formed quintuple turns the
acceptance into the malformed-identifier rejection. -/
theorem validateProvisionInputs_uuid_quintuple (body : ProvisionBody) (instanceID : String)
    (h₁ : body.ServiceID ≠ "") (h₂ : body.PlanID ≠ "") (h₃ : body.OrganizationID ≠ "")
    (h₄ : body.SpaceID ≠ "") (h₅ : instanceID ≠ "") :
    (validateProvisionInputs (some body) instanceID = .ret none ↔
      (CanonicalUUID body.ServiceID ∧ CanonicalUUID body.PlanID
        ∧ CanonicalUUID body.OrganizationID ∧ CanonicalUUID body.SpaceID
        ∧ CanonicalUUID instanceID)) ∧
    (¬ (CanonicalUUID body.ServiceID ∧ CanonicalUUID body.PlanID
        ∧ CanonicalUUID body.OrganizationID ∧ CanonicalUUID body.SpaceID
        ∧ CanonicalUUID instanceID) →
      validateProvisionInputs (some body) instanceID = .ret (some notValidUUID)) ∧
    ((CanonicalUUID body.ServiceID ∧ CanonicalUUID body.PlanID
        ∧ CanonicalUUID body.OrganizationID ∧ CanonicalUUID body.SpaceID
        ∧ CanonicalUUID instanceID) →
      ∀ x : String, x ≠ "" → ¬ CanonicalUUID x →
        validateProvisionInputs (some body) instanceID = .ret none ∧
        validateProvisionInputs (some { body with ServiceID := x }) instanceID
          = .ret (some notValidUUID) ∧
        validateProvisionInputs (some { body with PlanID := x }) instanceID
          = .ret (some notValidUUID) ∧
        validateProvisionInputs (some { body with OrganizationID := x }) instanceID
          = .ret (some notValidUUID) ∧
        validateProvisionInputs (some { body with SpaceID := x }) instanceID
          = .ret (some notValidUUID) ∧
        validateProvisionInputs (some body) x = .ret (some notValidUUID)) := by
  refine ⟨⟨fun h => ?_, validateProvisionInputs_accept body instanceID⟩,
    validateProvisionInputs_reject body instanceID h₁ h₂ h₃ h₄ h₅, ?_⟩
  · by_contra hall
    rw [validateProvisionInputs_reject body instanceID h₁ h₂ h₃ h₄ h₅ hall] at h
    cases h
  · intro hall x hx hnx
    refine ⟨validateProvisionInputs_accept body instanceID hall, ?_, ?_, ?_, ?_, ?_⟩
    · exact validateProvisionInputs_reject { body with ServiceID := x } instanceID hx h₂ h₃ h₄ h₅
        (fun h => hnx h.1)
    · exact validateProvisionInputs_reject { body with PlanID := x } instanceID h₁ hx h₃ h₄ h₅
        (fun h => hnx h.2.1)
    · exact validateProvisionInputs_reject { body with OrganizationID := x } instanceID h₁ h₂ hx
        h₄ h₅ (fun h => hnx h.2.2.1)
    · exact validateProvisionInputs_reject { body with SpaceID := x } instanceID h₁ h₂ h₃ hx h₅
        (fun h => hnx h.2.2.2.1)
    · exact validateProvisionInputs_reject body x h₁ h₂ h₃ h₄ hx (fun h => hnx h.2.2.2.2)

/-- Witness for C2: the catalog identifiers form a well-formed quintuple, which is
accepted, and replacing the instance id by `"instance-1"` is rejected as malformed. -/
theorem validateProvisionInputs_uuid_quintuple_witness :
    validateProvisionInputs
        (some ⟨"011ca270-ad21-44e2-95d6-60c70a840a80", "4f79aa95-b5ca-4030-a263-c58cb2c61dfc",
          "0a1b2c3d-4e5f-6071-8293-a4b5c6d7e8f9", "00000000-0000-0000-0000-000000000000"⟩)
        "123e4567-e89b-12d3-a456-426614174000" = .ret none ∧
      validateProvisionInputs
        (some ⟨"011ca270-ad21-44e2-95d6-60c70a840a80", "4f79aa95-b5ca-4030-a263-c58cb2c61dfc",
          "0a1b2c3d-4e5f-6071-8293-a4b5c6d7e8f9", "00000000-0000-0000-0000-000000000000"⟩)
        "instance-1" = .ret (some notValidUUID) :=
  have h := validateProvisionInputs_uuid_quintuple
    ⟨"011ca270-ad21-44e2-95d6-60c70a840a80", "4f79aa95-b5ca-4030-a263-c58cb2c61dfc",
      "0a1b2c3d-4e5f-6071-8293-a4b5c6d7e8f9", "00000000-0000-0000-0000-000000000000"⟩
    "123e4567-e89b-12d3-a456-426614174000" (by decide) (by decide) (by decide) (by decide)
    (by decide)
  have hall := h.2.2
    ⟨(isUUID_iff_canonical _).mp (by decide), (isUUID_iff_canonical _).mp (by decide),
      (isUUID_iff_canonical _).mp (by decide), (isUUID_iff_canonical _).mp (by decide),
      (isUUID_iff_canonical _).mp (by decide)⟩
    "instance-1" (by decide) (fun hc => absurd ((isUUID_iff_canonical _).mpr hc) (by decide))
  ⟨hall.1, hall.2.2.2.2.2⟩

/-- C3. `isUUID s` holds exactly when `s` has 36 characters, the characters at
positions 8, 13, 18 and 23 are hyphens and every other character is one of `0`-`9`
or `a`-`f`. Consequently a string containing any other character (an uppercase
digit, a blank, a newline) is rejected, and so is a UUID with anything added in
front of it or after it. -/
theorem isUUID_iff_canonical_form (s : String) :
    (isUUID s = true ↔
      (s.length = 36 ∧
        ∀ (i : Nat) (c : Char), s.data[i]? = some c →
          if i ∈ [8, 13, 18, 23] then c = '-'
          else ('0'.toNat ≤ c.toNat ∧ c.toNat ≤ '9'.toNat)
            ∨ ('a'.toNat ≤ c.toNat ∧ c.toNat ≤ 'f'.toNat))) ∧
    ((∃ c ∈ s.data, c ≠ '-' ∧ ¬ (('0'.toNat ≤ c.toNat ∧ c.toNat ≤ '9'.toNat)
        ∨ ('a'.toNat ≤ c.toNat ∧ c.toNat ≤ 'f'.toNat))) → isUUID s = false) ∧
    (isUUID s = true → ∀ p q : String, (p ≠ "" ∨ q ≠ "") → isUUID (p ++ s ++ q) = false) := by
  refine ⟨isUUID_iff_canonical s, ?_, ?_⟩
  · rintro ⟨c, hc, hd, hx⟩
    by_contra hu
    rw [Bool.not_eq_false] at hu
    rcases isUUID_chars hu c hc with h | h
    · exact hd h
    · exact hx h
  · intro hu p q hpq
    by_contra hu2
    rw [Bool.not_eq_false] at hu2
    have h1 := isUUID_length hu
    have h2 := isUUID_length hu2
    rw [String.length_append, String.length_append, h1] at h2
    have hp : p.length = 0 := by omega
    have hq : q.length = 0 := by omega
    have hp2 : p = "" := (isNull_iff p).mp (by simp [isNull, hp])
    have hq2 : q = "" := (isNull_iff q).mp (by simp [isNull, hq])
    rcases hpq with h | h
    · exact h hp2
    · exact h hq2

/-- Witness for C3: a catalog identifier is accepted; its uppercase form, the same
text followed by a newline and the same text after a blank are rejected. -/
theorem isUUID_iff_canonical_form_witness :
    isUUID "011ca270-ad21-44e2-95d6-60c70a840a80" = true ∧
      isUUID "011CA270-AD21-44E2-95D6-60C70A840A80" = false ∧
      isUUID ("" ++ "011ca270-ad21-44e2-95d6-60c70a840a80" ++ "\n") = false ∧
      isUUID (" " ++ "011ca270-ad21-44e2-95d6-60c70a840a80" ++ "") = false :=
  ⟨by decide,
    (isUUID_iff_canonical_form "011CA270-AD21-44E2-95D6-60C70A840A80").2.1
      ⟨'C', by decide, by decide, by decide⟩,
    (isUUID_iff_canonical_form "011ca270-ad21-44e2-95d6-60c70a840a80").2.2 (by decide)
      "" "\n" (Or.inr (by decide)),
    (isUUID_iff_canonical_form "011ca270-ad21-44e2-95d6-60c70a840a80").2.2 (by decide)
      " " "" (Or.inl (by decide))⟩

/-! ### Sorting and parsing -/

theorem bytesLess_irrefl (a : List Nat) : bytesLess a a = false := by
  induction a with
  | nil => rfl
  | cons x t ih => simp [bytesLess, ih]

theorem bytesLess_asymm : ∀ (a b : List Nat), bytesLess a b = true → bytesLess b a = false := by
  intro a
  induction a with
  | nil => intro b _; cases b <;> rfl
  | cons x t ih =>
    intro b h
    cases b with
    | nil => simp [bytesLess] at h
    | cons y u =>
      simp only [bytesLess, Bool.or_eq_true, decide_eq_true_eq, Bool.and_eq_true, beq_iff_eq] at h
      simp only [bytesLess, Bool.or_eq_false_iff, decide_eq_false_iff_not, Bool.and_eq_false_imp,
        beq_iff_eq]
      rcases h with h | ⟨h1, h2⟩
      · exact ⟨by omega, fun he => by omega⟩
      · exact ⟨by omega, fun _ => ih u h2⟩

theorem bytesLess_negTrans : ∀ (a b c : List Nat),
    bytesLess b a = false → bytesLess c b = false → bytesLess c a = false := by
  intro a
  induction a with
  | nil =>
    intro b c h1 h2
    cases b with
    | nil => exact h2
    | cons y u => cases c <;> simp [bytesLess] at h1 h2 ⊢
  | cons x t ih =>
    intro b c h1 h2
    cases b with
    | nil =>
      simp [bytesLess] at h1
    | cons y u =>
      cases c with
      | nil => simp [bytesLess] at h2
      | cons z w =>
        simp only [bytesLess, Bool.or_eq_false_iff, decide_eq_false_iff_not,
          Bool.and_eq_false_imp, beq_iff_eq] at h1 h2 ⊢
        refine ⟨by omega, fun he => ?_⟩
        have hyx : y = x := by omega
        have hzy : z = y := by omega
        exact ih u w (h1.2 hyx) (h2.2 hzy)

theorem StringLE_total (a b : String) : StringLE a b ∨ StringLE b a := by
  unfold StringLE stringLess
  cases h : bytesLess (bytes b) (bytes a)
  · exact Or.inl rfl
  · exact Or.inr (bytesLess_asymm _ _ h)

theorem StringLE_trans (a b c : String) (h1 : StringLE a b) (h2 : StringLE b c) :
    StringLE a c := by
  unfold StringLE stringLess at *
  exact bytesLess_negTrans _ _ _ h1 h2

theorem sortStrings_last (l : List String) (hl : l ≠ []) :
    ∃ t, (sortStrings l)[(sortStrings l).length - 1]? = some t ∧ t ∈ l ∧
      ∀ u ∈ l, stringLess t u = false := by
  have hperm : (sortStrings l).Perm l := List.perm_insertionSort StringLE l
  have hsorted : (sortStrings l).Sorted StringLE :=
    @List.sorted_insertionSort _ StringLE _ ⟨StringLE_total⟩ ⟨StringLE_trans⟩ l
  have hne : sortStrings l ≠ [] := by
    intro h
    rw [h] at hperm
    exact hl (List.Perm.nil_eq hperm).symm
  refine ⟨(sortStrings l).getLast hne, ?_, ?_, ?_⟩
  · rw [List.getLast_eq_getElem]
    exact List.getElem?_eq_getElem _
  · exact hperm.subset (List.getLast_mem hne)
  · intro u hu
    have hu2 : u ∈ sortStrings l := hperm.symm.subset hu
    obtain ⟨init, hinit⟩ : ∃ init, sortStrings l = init ++ [(sortStrings l).getLast hne] :=
      ⟨_, (List.dropLast_append_getLast hne).symm⟩
    rw [hinit] at hu2 hsorted
    rcases List.mem_append.mp hu2 with h | h
    · have := (List.pairwise_append.mp hsorted).2.2 u h _ (List.mem_singleton_self _)
      exact this
    · rw [List.mem_singleton] at h
      rw [h]
      exact bytesLess_irrefl _

theorem isDigit_iff (c : Char) :
    isDigit c = true ↔ ('0'.toNat ≤ c.toNat ∧ c.toNat ≤ '9'.toNat) := by
  simp [isDigit]

theorem le_digitsValueFrom (s : List Char) : ∀ n, n ≤ digitsValueFrom n s := by
  induction s with
  | nil => intro n; exact Nat.le_refl _
  | cons c t ih =>
    intro n
    have := ih (10 * n + (c.toNat - '0'.toNat))
    simp only [digitsValueFrom, List.foldl_cons] at this ⊢
    omega

theorem parseUintLoop_digits (s : List Char) : ∀ n,
    (∀ c ∈ s, isDigit c = true) → digitsValueFrom n s < 2 ^ 64 →
    parseUintLoop 1844674407370955162 18446744073709551615 s n = (digitsValueFrom n s, none) := by
  induction s with
  | nil => intro n _ _; rfl
  | cons c t ih =>
    intro n hd hv
    have hc := (isDigit_iff c).mp (hd c (List.mem_cons_self _ _))
    have hle := le_digitsValueFrom t (10 * n + (c.toNat - '0'.toNat))
    have hv2 : digitsValueFrom (10 * n + (c.toNat - '0'.toNat)) t < 2 ^ 64 := hv
    have h0 : '0'.toNat = 48 := rfl
    have h9 : '9'.toNat = 57 := rfl
    rw [h0, h9] at hc
    rw [h0] at hle hv2
    norm_num at hv2 hle
    have hmod : (n * 10 + (c.toNat - 48)) % 2 ^ 64 = n * 10 + (c.toNat - 48) :=
      Nat.mod_eq_of_lt (by norm_num; omega)
    have hrec := ih (n * 10 + (c.toNat - 48)) (fun x hx => hd x (List.mem_cons_of_mem _ hx))
      (by rw [Nat.mul_comm]; norm_num; exact hv2)
    simp only [parseUintLoop, h0, h9, hc, and_self, if_true, hmod]
    rw [if_neg (by omega), if_neg (by omega), hrec]
    simp only [digitsValueFrom, List.foldl_cons, h0, Nat.mul_comm]

theorem parseUintLoop_range (s : List Char) : ∀ n, n < 2 ^ 64 →
    (∀ c ∈ s, isDigit c = true) → 2 ^ 64 ≤ digitsValueFrom n s →
    parseUintLoop 1844674407370955162 18446744073709551615 s n
      = (18446744073709551615, some .ErrRange) := by
  induction s with
  | nil => intro n hn _ hv; simp only [digitsValueFrom, List.foldl_nil] at hv; omega
  | cons c t ih =>
    intro n hn hd hv
    have hc := (isDigit_iff c).mp (hd c (List.mem_cons_self _ _))
    have hv2 : 2 ^ 64 ≤ digitsValueFrom (10 * n + (c.toNat - '0'.toNat)) t := hv
    have h0 : '0'.toNat = 48 := rfl
    have h9 : '9'.toNat = 57 := rfl
    rw [h0, h9] at hc
    rw [h0] at hv2
    norm_num at hv2 hn
    simp only [parseUintLoop, h0, h9, hc, and_self, if_true]
    by_cases h1 : n ≥ 1844674407370955162
    · rw [if_pos h1]
    · rw [if_neg h1]
      by_cases h2 : n * 10 + (c.toNat - 48) < 2 ^ 64
      · have hmod : (n * 10 + (c.toNat - 48)) % 2 ^ 64 = n * 10 + (c.toNat - 48) :=
          Nat.mod_eq_of_lt h2
        rw [hmod, if_neg (by norm_num at h2; omega)]
        exact ih _ h2 (fun x hx => hd x (List.mem_cons_of_mem _ hx))
          (by rw [Nat.mul_comm]; norm_num; exact hv2)
      · rw [if_pos]
        left
        norm_num at h2 ⊢
        omega

theorem parseUintLoop_invalid (s : List Char) : ∀ n,
    (∃ c ∈ s, isDigit c = false) → digitsValueFrom n (s.takeWhile isDigit) < 2 ^ 64 →
    parseUintLoop 1844674407370955162 18446744073709551615 s n = (0, some .ErrSyntax) := by
  induction s with
  | nil => intro n h _; obtain ⟨c, hc, _⟩ := h; cases hc
  | cons c t ih =>
    intro n hex hb
    have h0 : '0'.toNat = 48 := rfl
    have h9 : '9'.toNat = 57 := rfl
    by_cases hc : isDigit c = true
    · have hex2 : ∃ x ∈ t, isDigit x = false := by
        obtain ⟨x, hx, hxd⟩ := hex
        rcases List.mem_cons.mp hx with h | h
        · rw [h, hc] at hxd; cases hxd
        · exact ⟨x, h, hxd⟩
      have hc2 := (isDigit_iff c).mp hc
      rw [h0, h9] at hc2
      rw [List.takeWhile_cons_of_pos hc] at hb
      have hb2 : digitsValueFrom (10 * n + (c.toNat - '0'.toNat)) (t.takeWhile isDigit)
          < 2 ^ 64 := hb
      have hle := le_digitsValueFrom (t.takeWhile isDigit) (10 * n + (c.toNat - '0'.toNat))
      rw [h0] at hb2 hle
      norm_num at hb2 hle
      have hmod : (n * 10 + (c.toNat - 48)) % 2 ^ 64 = n * 10 + (c.toNat - 48) :=
        Nat.mod_eq_of_lt (by norm_num; omega)
      simp only [parseUintLoop, h0, h9, hc2, and_self, if_true, hmod]
      rw [if_neg (by omega), if_neg (by omega)]
      exact ih _ hex2 (by rw [Nat.mul_comm]; norm_num; exact hb2)
    · have hc2 : ¬ ('0'.toNat ≤ c.toNat ∧ c.toNat ≤ '9'.toNat) := by
        rw [← isDigit_iff]; exact hc
      simp only [parseUintLoop, hc2, if_false]

theorem isDigits_iff (s : List Char) :
    isDigits s = true ↔ s ≠ [] ∧ ∀ c ∈ s, isDigit c = true := by
  cases s <;> simp [isDigits]

theorem ParseUint_digits (s : List Char) (hd : isDigits s = true) (hv : digitsValue s < 2 ^ 64) :
    ParseUint s = (digitsValue s, none) := by
  obtain ⟨hne, hall⟩ := (isDigits_iff s).mp hd
  have he : s.isEmpty = false := by cases s <;> simp_all
  simp only [ParseUint, he, Bool.false_eq_true, if_false, maxUint64, intSize]
  exact parseUintLoop_digits s 0 hall hv

theorem ParseUint_range (s : List Char) (hd : isDigits s = true) (hv : 2 ^ 64 ≤ digitsValue s) :
    ParseUint s = (18446744073709551615, some .ErrRange) := by
  obtain ⟨hne, hall⟩ := (isDigits_iff s).mp hd
  have he : s.isEmpty = false := by cases s <;> simp_all
  simp only [ParseUint, he, Bool.false_eq_true, if_false, maxUint64, intSize]
  exact parseUintLoop_range s 0 (by norm_num) hall hv

theorem ParseUint_invalid (s : List Char) (hd : isDigits s = false)
    (hv : digitsValue (s.takeWhile isDigit) < 2 ^ 64) :
    ParseUint s = (0, some .ErrSyntax) := by
  by_cases he : s.isEmpty = true
  · simp only [ParseUint, he, if_true]
  · have hex : ∃ c ∈ s, isDigit c = false := by
      by_contra hcon
      push_neg at hcon
      have : isDigits s = true := by
        rw [isDigits_iff]
        refine ⟨fun h => he (by simp [h]), fun c hc => ?_⟩
        simpa using hcon c hc
      rw [this] at hd; cases hd
    simp only [ParseUint, he, if_false, maxUint64, intSize]
    exact parseUintLoop_invalid s 0 hex hv

theorem ParseInt_neg (r : List Char) (hd : isDigits r = true) :
    (ParseInt ('-' :: r)).1 = max (-(2 : Int) ^ 63) (-(digitsValue r : Int)) := by
  have hstrip : (if (('-' :: r).head? == some '+') = true ∨ (('-' :: r).head? == some '-') = true
      then ('-' :: r).tail else '-' :: r) = r := by simp
  by_cases hv : digitsValue r < 2 ^ 64
  · simp only [ParseInt, hstrip, ParseUint_digits r hd hv, intSize]
    simp only [List.isEmpty_cons, Bool.false_eq_true, if_false, List.head?_cons, beq_self_eq_true,
      Bool.not_true, Bool.false_and, Bool.true_and, decide_eq_true_eq, if_true]
    norm_num
    split_ifs with h2 <;> simp only [] <;> omega
  · simp only [ParseInt, hstrip, ParseUint_range r hd (by omega), intSize]
    simp only [List.isEmpty_cons, Bool.false_eq_true, if_false, List.head?_cons, beq_self_eq_true,
      Bool.not_true, Bool.false_and, Bool.true_and, decide_eq_true_eq, if_true]
    norm_num
    norm_num at hv
    omega

theorem ParseInt_pos (s r : List Char) (hs : s = r ∨ s = '+' :: r) (hm : s.head? ≠ some '-')
    (hd : isDigits r = true) :
    (ParseInt s).1 = min ((2 : Int) ^ 63 - 1) (digitsValue r : Int) := by
  have hne : s.isEmpty = false := by
    rcases hs with h | h
    · rw [h]; cases r <;> simp_all [isDigits]
    · rw [h]; rfl
  have hneg : (s.head? == some '-') = false := by simpa using hm
  have hstrip : (if (s.head? == some '+') = true ∨ (s.head? == some '-') = true
      then s.tail else s) = r := by
    rcases hs with h | h
    · subst h
      have hplus : (s.head? == some '+') = false := by
        cases s with
        | nil => rfl
        | cons c t =>
          have hc := ((isDigits_iff _).mp hd).2 c (List.mem_cons_self _ _)
          rw [isDigit_iff] at hc
          simp only [List.head?_cons, beq_eq_false_iff_ne, ne_eq, Option.some.injEq]
          intro h
          rw [h] at hc
          revert hc
          decide
      simp [hplus, hneg]
    · subst h; simp
  by_cases hv : digitsValue r < 2 ^ 64
  · simp only [ParseInt, hstrip, ParseUint_digits r hd hv, intSize]
    simp only [hne, hneg, Bool.false_eq_true, if_false, Bool.not_false, Bool.true_and,
      Bool.false_and, decide_eq_true_eq]
    norm_num
    split_ifs with h2 <;> simp only [] <;> omega
  · simp only [ParseInt, hstrip, ParseUint_range r hd (by omega), intSize]
    simp only [hne, hneg, Bool.false_eq_true, if_false, Bool.not_false, Bool.true_and,
      Bool.false_and, decide_eq_true_eq]
    norm_num
    norm_num at hv
    omega

theorem ParseInt_invalid (s : List Char)
    (hd : isDigits (if s.head? = some '+' ∨ s.head? = some '-' then s.tail else s) = false)
    (hv : digitsValue ((if s.head? = some '+' ∨ s.head? = some '-' then s.tail
      else s).takeWhile isDigit) < 2 ^ 64) :
    (ParseInt s).1 = 0 := by
  by_cases he : s.isEmpty = true
  · simp only [ParseInt, he, if_true]
  · have hstrip : (if (s.head? == some '+') = true ∨ (s.head? == some '-') = true
        then s.tail else s) = (if s.head? = some '+' ∨ s.head? = some '-' then s.tail else s) := by
      simp only [beq_iff_eq]
    simp only [ParseInt, he, hstrip, ParseUint_invalid _ hd hv]
    rfl

theorem Atoi_of_numeral (t : String) (n : Int) (h : parseInteger t = some n) :
    (Atoi t).1 = max (-(2 : Int) ^ 63) (min ((2 : Int) ^ 63 - 1) n) := by
  unfold parseInteger at h
  unfold Atoi
  split_ifs at h with h1 h2 h3 h4 h5
  · obtain ⟨c, r, hcr⟩ : ∃ c r, t.data = c :: r := by
      cases hd : t.data with
      | nil => rw [hd] at h1; cases h1
      | cons c r => exact ⟨c, r, rfl⟩
    rw [hcr] at h1 h2 h ⊢
    simp only [List.head?_cons, Option.some.injEq, List.tail_cons] at h1 h2 h
    subst h1
    rw [ParseInt_neg r h2, ← h]
    norm_num
    omega
  · obtain ⟨c, r, hcr⟩ : ∃ c r, t.data = c :: r := by
      cases hd : t.data with
      | nil => rw [hd] at h3; cases h3
      | cons c r => exact ⟨c, r, rfl⟩
    rw [hcr] at h3 h4 h ⊢
    simp only [List.head?_cons, Option.some.injEq, List.tail_cons] at h3 h4 h
    subst h3
    rw [ParseInt_pos ('+' :: r) r (Or.inr rfl) (by simp) h4, ← h]
    norm_num
    omega
  · simp only [Option.some.injEq] at h
    rw [ParseInt_pos t.data t.data (Or.inl rfl) h1 h5, ← h]
    norm_num
    omega

theorem Atoi_of_not_numeral (t : String) (h : parseInteger t = none)
    (hv : digitsValue (leadingDigits t) < 2 ^ 64) : (Atoi t).1 = 0 := by
  unfold Atoi
  apply ParseInt_invalid t.data _ hv
  unfold parseInteger at h
  split_ifs at h with h1 h2 h3 h4 h5
  · simpa [h1] using h2
  · simpa [h3] using h4
  · simpa [h1, h3] using h5

theorem wrapInt_of_inRange (x : Int) (h1 : -(2 : Int) ^ 63 ≤ x) (h2 : x < (2 : Int) ^ 63) :
    wrapInt x = x := by
  unfold wrapInt intSize
  norm_num at h1 h2 ⊢
  omega

theorem takeWhile_of_isDigits (s : List Char) (h : isDigits s = true) :
    s.takeWhile isDigit = s := by
  rw [List.takeWhile_eq_self_iff]
  exact ((isDigits_iff s).mp h).2

theorem parseInteger_eq_leading (t : String) (n : Int) (h : parseInteger t = some n) :
    n = (digitsValue (leadingDigits t) : Int) ∨ n = -(digitsValue (leadingDigits t) : Int) := by
  unfold parseInteger at h
  unfold leadingDigits
  split_ifs at h with h1 h2 h3 h4 h5
  · simp only [Option.some.injEq] at h
    right
    rw [if_pos (Or.inr h1), takeWhile_of_isDigits _ h2, ← h]
  · simp only [Option.some.injEq] at h
    left
    rw [if_pos (Or.inl h3), takeWhile_of_isDigits _ h4, ← h]
  · simp only [Option.some.injEq] at h
    left
    rw [if_neg (by tauto), takeWhile_of_isDigits _ h5, ← h]

theorem successor_of_fitting_token (t : String)
    (hv : digitsValue (leadingDigits t) + 1 < 2 ^ 63) :
    wrapInt ((Atoi t).1 + 1) = (parseInteger t).getD 0 + 1 := by
  cases hp : parseInteger t with
  | none =>
    rw [Atoi_of_not_numeral t hp (by omega)]
    rw [wrapInt_of_inRange _ (by norm_num) (by norm_num)]
    rfl
  | some n =>
    have hn := parseInteger_eq_leading t n hp
    have hv2 : (digitsValue (leadingDigits t) : Int) + 1 < 2 ^ 63 := by exact_mod_cast hv
    have hnn : (0 : Int) ≤ (digitsValue (leadingDigits t) : Int) := Int.ofNat_nonneg _
    have ha : (Atoi t).1 = n := by
      rw [Atoi_of_numeral t n hp]
      norm_num at hv2 ⊢
      omega
    rw [ha, wrapInt_of_inRange _ (by norm_num at hv2 ⊢; omega) (by norm_num at hv2 ⊢; omega)]
    rfl

theorem nextAvailablePort_empty (stdout : String) (h : Fields stdout = []) :
    nextAvailablePort ⟨stdout, none⟩ = .ret ("59000", none) := by
  simp [nextAvailablePort, h, initHostPort]

theorem nextAvailablePort_nonempty (stdout : String) (h : Fields stdout ≠ []) :
    ∃ t ∈ Fields stdout, (∀ u ∈ Fields stdout, stringLess t u = false) ∧
      nextAvailablePort ⟨stdout, none⟩ = .ret (Itoa (wrapInt ((Atoi t).1 + 1)), none) := by
  obtain ⟨t, ht, hmem, hmax⟩ := sortStrings_last (Fields stdout) h
  refine ⟨t, hmem, hmax, ?_⟩
  have hlen : ((Fields stdout).length == 0) = false := by
    cases hf : Fields stdout with
    | nil => exact absurd hf h
    | cons a l => rfl
  simp only [nextAvailablePort, hlen, Bool.false_eq_true, if_false, ht]

/-! ### Port allocation -/

/-- C4. For every successful listing, with the ports the white-space separated
tokens of its output: `nextAvailablePort` returns `"59000"` when there is no token,
and otherwise the decimal rendering of `n + 1`, where `n` is the integer parse of a
byte-wise greatest token `t`, a token that is not a numeral counting as 0. The
listing is that of a runtime: the digits `t` starts with denote a number whose
successor fits an `int`, as the host ports, of at most five digits, all do. -/
theorem nextAvailablePort_successor_of_greatest (stdout : String) :
    (Fields stdout = [] → nextAvailablePort ⟨stdout, none⟩ = .ret ("59000", none)) ∧
    (Fields stdout ≠ [] →
      ∃ t ∈ Fields stdout, (∀ u ∈ Fields stdout, stringLess t u = false) ∧
        (digitsValue (leadingDigits t) + 1 < 2 ^ 63 →
          nextAvailablePort ⟨stdout, none⟩
            = .ret (Itoa ((parseInteger t).getD 0 + 1), none))) := by
  refine ⟨nextAvailablePort_empty stdout, fun hne => ?_⟩
  obtain ⟨t, hmem, hmax, hres⟩ := nextAvailablePort_nonempty stdout hne
  refine ⟨t, hmem, hmax, fun hfit => ?_⟩
  rw [hres, successor_of_fitting_token t hfit]

/-- Witness for C4: the two listings of the specification (59000, 59001, 59010 give
59011; 59009 and 590010 give 59010, the greatest token being `"59009"`), the empty
listing, the greatest host port 65535, and two listings with what the pipeline keeps
of an IPv6 entry, which is not a numeral and counts as 0. -/
theorem nextAvailablePort_successor_of_greatest_witness :
    nextAvailablePort ⟨"59000\n59001\n59010\n", none⟩ = .ret ("59011", none) ∧
      nextAvailablePort ⟨"59009\n590010\n", none⟩ = .ret ("59010", none) ∧
      nextAvailablePort ⟨"", none⟩ = .ret ("59000", none) ∧
      nextAvailablePort ⟨"65535\n", none⟩ = .ret ("65536", none) ∧
      nextAvailablePort ⟨"59000\n::59000\n", none⟩ = .ret ("1", none) ∧
      nextAvailablePort ⟨"9abc:def0:1234:5678:9abc:def0:1]:59001\n", none⟩
        = .ret ("1", none) := by
  refine ⟨?_, ?_, (nextAvailablePort_successor_of_greatest "").1 (by decide), ?_, ?_, ?_⟩
  · obtain ⟨t, hmem, hmax, hres⟩ :=
      (nextAvailablePort_successor_of_greatest "59000\n59001\n59010\n").2 (by decide)
    have hf : Fields "59000\n59001\n59010\n" = ["59000", "59001", "59010"] := by decide
    rw [hf] at hmem hmax
    have ht : t = "59010" := by
      simp only [List.mem_cons, List.mem_singleton, List.not_mem_nil, or_false] at hmem
      rcases hmem with h | h | h
      · exact absurd (hmax "59010" (by decide)) (by rw [h]; decide)
      · exact absurd (hmax "59010" (by decide)) (by rw [h]; decide)
      · exact h
    subst ht
    rw [hres (by decide)]
    decide
  · obtain ⟨t, hmem, hmax, hres⟩ :=
      (nextAvailablePort_successor_of_greatest "59009\n590010\n").2 (by decide)
    have hf : Fields "59009\n590010\n" = ["59009", "590010"] := by decide
    rw [hf] at hmem hmax
    have ht : t = "59009" := by
      simp only [List.mem_cons, List.mem_singleton, List.not_mem_nil, or_false] at hmem
      rcases hmem with h | h
      · exact h
      · exact absurd (hmax "59009" (by decide)) (by rw [h]; decide)
    subst ht
    rw [hres (by decide)]
    decide
  · obtain ⟨t, hmem, -, hres⟩ :=
      (nextAvailablePort_successor_of_greatest "65535\n").2 (by decide)
    have hf : Fields "65535\n" = ["65535"] := by decide
    rw [hf, List.mem_singleton] at hmem
    subst hmem
    rw [hres (by decide)]
    decide
  · obtain ⟨t, hmem, hmax, hres⟩ :=
      (nextAvailablePort_successor_of_greatest "59000\n::59000\n").2 (by decide)
    have hf : Fields "59000\n::59000\n" = ["59000", "::59000"] := by decide
    rw [hf] at hmem hmax
    have ht : t = "::59000" := by
      simp only [List.mem_cons, List.mem_singleton, List.not_mem_nil, or_false] at hmem
      rcases hmem with h | h
      · exact absurd (hmax "::59000" (by decide)) (by rw [h]; decide)
      · exact h
    subst ht
    rw [hres (by decide)]
    decide
  · obtain ⟨t, hmem, -, hres⟩ :=
      (nextAvailablePort_successor_of_greatest
        "9abc:def0:1234:5678:9abc:def0:1]:59001\n").2 (by decide)
    have hf : Fields "9abc:def0:1234:5678:9abc:def0:1]:59001\n"
        = ["9abc:def0:1234:5678:9abc:def0:1]:59001"] := by decide
    rw [hf, List.mem_singleton] at hmem
    subst hmem
    rw [hres (by decide)]
    decide

/-- C5 at its failing input: with the host ports 9999 and 10000 published, the
listing has the tokens `"9999"` and `"10000"`, the byte-wise greatest is `"9999"`, and
`nextAvailablePort` returns `"10000"`, a port of the list. -/
theorem nextAvailablePort_returns_published_port :
    Fields "9999\n10000\n" = ["9999", "10000"] ∧
      nextAvailablePort ⟨"9999\n10000\n", none⟩ = .ret ("10000", none) ∧
      "10000" ∈ Fields "9999\n10000\n" := by
  decide

theorem fieldsFrom_nonempty (f : Char → Bool) (s : List Char) :
    ∀ cur, ∀ t ∈ fieldsFrom f cur s, t.data ≠ [] := by
  induction s with
  | nil =>
    intro cur t ht
    unfold fieldsFrom at ht
    split_ifs at ht with h
    · cases ht
    · rw [List.mem_singleton] at ht
      subst ht
      intro hc
      have hc2 : cur = [] := hc
      exact h (by rw [hc2]; rfl)
  | cons c r ih =>
    intro cur t ht
    unfold fieldsFrom at ht
    split_ifs at ht with h1 h2
    · exact ih [] t ht
    · rcases List.mem_cons.mp ht with h | h
      · subst h
        intro hc
        have hc2 : cur = [] := hc
        exact h2 (by rw [hc2]; rfl)
      · exact ih [] t h
    · exact ih _ t ht

theorem Fields_nonempty (s : String) : ∀ t ∈ Fields s, t.data ≠ [] :=
  fieldsFrom_nonempty IsSpace s.data []

theorem bytes_of_digits (s : List Char) (hd : ∀ c ∈ s, isDigit c = true) :
    s.flatMap utf8EncodeRune = s.map Char.toNat := by
  induction s with
  | nil => rfl
  | cons c t ih =>
    have hc := (isDigit_iff c).mp (hd c (List.mem_cons_self _ _))
    have h9 : '9'.toNat = 57 := rfl
    rw [h9] at hc
    have he : utf8EncodeRune c = [c.toNat] := by
      unfold utf8EncodeRune
      simp only []
      rw [if_pos (by omega)]
    rw [List.flatMap_cons, he, ih (fun x hx => hd x (List.mem_cons_of_mem _ hx))]
    rfl

theorem digitsValueFrom_lt_iff (a : List Char) : ∀ (b : List Char) (n m : Nat),
    a.length = b.length → (∀ c ∈ a, isDigit c = true) → (∀ c ∈ b, isDigit c = true) →
    (digitsValueFrom n a < digitsValueFrom m b ↔
      n < m ∨ (n = m ∧ bytesLess (a.map Char.toNat) (b.map Char.toNat) = true)) := by
  induction a with
  | nil =>
    intro b n m hl _ _
    cases b with
    | nil => simp [digitsValueFrom, bytesLess]
    | cons d b => simp at hl
  | cons c a ih =>
    intro b n m hl ha hb
    cases b with
    | nil => simp at hl
    | cons d b =>
      have hc := (isDigit_iff c).mp (ha c (List.mem_cons_self _ _))
      have hd := (isDigit_iff d).mp (hb d (List.mem_cons_self _ _))
      have h0 : '0'.toNat = 48 := rfl
      have h9 : '9'.toNat = 57 := rfl
      rw [h0, h9] at hc hd
      have hrec := ih b (10 * n + (c.toNat - 48)) (10 * m + (d.toNat - 48))
        (by simpa using hl) (fun x hx => ha x (List.mem_cons_of_mem _ hx))
        (fun x hx => hb x (List.mem_cons_of_mem _ hx))
      have e1 : digitsValueFrom n (c :: a) = digitsValueFrom (10 * n + (c.toNat - 48)) a := rfl
      have e2 : digitsValueFrom m (d :: b) = digitsValueFrom (10 * m + (d.toNat - 48)) b := rfl
      rw [e1, e2, hrec]
      simp only [List.map_cons, bytesLess, Bool.or_eq_true, decide_eq_true_eq, Bool.and_eq_true,
        beq_iff_eq]
      cases bytesLess (List.map Char.toNat a) (List.map Char.toNat b)
      · simp only [Bool.false_eq_true, and_false, or_false]
        omega
      · simp only [and_true]
        omega

theorem digitsValue_le_of_not_stringLess (t u : String) (hl : t.length = u.length)
    (ht : ∀ c ∈ t.data, isDigit c = true) (hu : ∀ c ∈ u.data, isDigit c = true)
    (h : stringLess t u = false) : digitsValue u.data ≤ digitsValue t.data := by
  have hiff := digitsValueFrom_lt_iff t.data u.data 0 0 hl ht hu
  unfold stringLess bytes at h
  rw [bytes_of_digits _ ht, bytes_of_digits _ hu] at h
  rw [h] at hiff
  simp only [Nat.lt_irrefl, Bool.false_eq_true, and_false, or_false, iff_false, not_lt] at hiff
  exact hiff

theorem numericMax_eq (ports : List String) (t : String) (hmem : t ∈ ports)
    (hmax : ∀ u ∈ ports, digitsValue u.data ≤ digitsValue t.data) :
    numericMax ports = digitsValue t.data := by
  unfold numericMax
  induction ports with
  | nil => cases hmem
  | cons p l ih =>
    simp only [List.map_cons, List.foldr_cons]
    have hp := hmax p (List.mem_cons_self _ _)
    rcases List.mem_cons.mp hmem with h | h
    · subst h
      have hle : List.foldr max 0 (List.map (fun p => digitsValue p.data) l)
          ≤ digitsValue t.data := by
        clear ih hmem hp
        induction l with
        | nil => exact Nat.zero_le _
        | cons q l ih2 =>
          simp only [List.map_cons, List.foldr_cons]
          exact max_le (hmax q (List.mem_cons_of_mem _ (List.mem_cons_self _ _)))
            (ih2 (fun u hu => by
              rcases List.mem_cons.mp hu with h | h
              · exact hmax u (by rw [h]; exact List.mem_cons_self _ _)
              · exact hmax u (List.mem_cons_of_mem _ (List.mem_cons_of_mem _ h))))
      exact max_eq_left hle
    · rw [ih h (fun u hu => hmax u (List.mem_cons_of_mem _ hu))]
      exact max_eq_right hp

/-- C6. For every successful listing with at least one token, whose tokens consist
only of decimal digits and all have the same number of digits, the byte-wise
selection coincides with the strict numeric maximum: every byte-wise greatest token
has the numeric maximum of the list as its value; and `nextAvailablePort` returns
the decimal rendering of the numeric maximum plus one. The tokens are ports: the
successor of their maximum fits an `int`, as that of every host port does. -/
theorem nextAvailablePort_numeric_max_of_equal_width (stdout : String)
    (hne : Fields stdout ≠ [])
    (hdig : ∀ p ∈ Fields stdout, ∀ c ∈ p.data, isDigit c = true)
    (hlen : ∀ p ∈ Fields stdout, ∀ q ∈ Fields stdout, p.length = q.length) :
    (∀ t ∈ Fields stdout, (∀ u ∈ Fields stdout, stringLess t u = false) →
      digitsValue t.data = numericMax (Fields stdout)) ∧
    (numericMax (Fields stdout) + 1 < 2 ^ 63 →
      nextAvailablePort ⟨stdout, none⟩
        = .ret (Itoa ((numericMax (Fields stdout) : Int) + 1), none)) := by
  have hsel : ∀ t ∈ Fields stdout, (∀ u ∈ Fields stdout, stringLess t u = false) →
      digitsValue t.data = numericMax (Fields stdout) := by
    intro t hmem hmax
    exact (numericMax_eq (Fields stdout) t hmem (fun u hu =>
      digitsValue_le_of_not_stringLess t u (hlen t hmem u hu) (hdig t hmem) (hdig u hu)
        (hmax u hu))).symm
  refine ⟨hsel, fun hfit => ?_⟩
  obtain ⟨t, hmem, hmax, hres⟩ := nextAvailablePort_nonempty stdout hne
  have hval : numericMax (Fields stdout) = digitsValue t.data := (hsel t hmem hmax).symm
  have htd : isDigits t.data = true :=
    (isDigits_iff _).mpr ⟨Fields_nonempty stdout t hmem, hdig t hmem⟩
  have hhead : t.data.head? ≠ some '-' := by
    cases hd : t.data with
    | nil => simp
    | cons c r =>
      have hc := (isDigit_iff c).mp (hdig t hmem c (by rw [hd]; exact List.mem_cons_self _ _))
      simp only [List.head?_cons, ne_eq, Option.some.injEq]
      intro h
      rw [h] at hc
      revert hc
      decide
  have ha : (Atoi t).1 = (digitsValue t.data : Int) := by
    unfold Atoi
    rw [ParseInt_pos t.data t.data (Or.inl rfl) hhead htd]
    rw [hval] at hfit
    norm_num at hfit ⊢
    omega
  rw [hres, ha, hval,
    wrapInt_of_inRange _ (by omega) (by rw [hval] at hfit; norm_num at hfit ⊢; omega)]

/-- Witness for C6: three five-digit ports, and the two greatest host ports. -/
theorem nextAvailablePort_numeric_max_of_equal_width_witness :
    nextAvailablePort ⟨"59001\n59010\n59000\n", none⟩ = .ret ("59011", none) ∧
      nextAvailablePort ⟨"65535\n65534\n", none⟩ = .ret ("65536", none) ∧
      digitsValue "59010".data = numericMax (Fields "59001\n59010\n59000\n") :=
  ⟨(nextAvailablePort_numeric_max_of_equal_width "59001\n59010\n59000\n" (by decide)
      (by decide) (by decide)).2 (by decide),
    (nextAvailablePort_numeric_max_of_equal_width "65535\n65534\n" (by decide)
      (by decide) (by decide)).2 (by decide),
    (nextAvailablePort_numeric_max_of_equal_width "59001\n59010\n59000\n" (by decide)
      (by decide) (by decide)).1 "59010" (by decide) (by decide)⟩

/-! ### TLS policy -/

theorem BitLen_ge_iff (N : Int) (n : Nat) : n + 1 ≤ BitLen N ↔ 2 ^ n ≤ N.natAbs := by
  unfold BitLen
  exact Nat.lt_size

theorem BitLen_two_pow (n : Nat) : BitLen ((2 : Int) ^ n) = n + 1 := by
  unfold BitLen
  rw [Int.natAbs_pow]
  exact Nat.size_pow

theorem validateCertBitLength_weak (chain : List DER) (N : Int) (h : BitLen N < 2048) :
    validateCertBitLength ⟨chain, .rsa N⟩
      = some ("Validating certificate length, expected " ++ "2048"
          ++ " bits but the key is " ++ Itoa (BitLen N)) := by
  have h2 : Itoa 2048 = "2048" := by decide
  simp only [validateCertBitLength, minRSABitModulus, h, if_true, Nat.cast_ofNat, h2]

theorem validateCertBitLength_strong (chain : List DER) (N : Int) (h : 2048 ≤ BitLen N) :
    validateCertBitLength ⟨chain, .rsa N⟩ = none := by
  simp only [validateCertBitLength, minRSABitModulus, Nat.not_lt.mpr h, if_false]

/-- C7. For a certificate whose private key is an RSA key with a modulus of bit
length `L`, `validateCertBitLength` succeeds exactly when `L ≥ 2048`, that is when
the modulus is at least `2^2047`; when it fails, the error text is
`Validating certificate length, expected 2048 bits but the key is L`, which contains
the required length 2048 and the actual length `L` in decimal. -/
theorem validateCertBitLength_rsa (chain : List DER) (N : Int) :
    (validateCertBitLength ⟨chain, .rsa N⟩ = none ↔ 2048 ≤ BitLen N) ∧
    (2048 ≤ BitLen N ↔ 2 ^ 2047 ≤ N.natAbs) ∧
    (BitLen N < 2048 →
      ∃ msg : String, validateCertBitLength ⟨chain, .rsa N⟩ = some msg ∧
        msg = "Validating certificate length, expected 2048 bits but the key is "
          ++ Itoa (BitLen N) ∧
        "2048".data <:+: msg.data ∧ (Itoa (BitLen N)).data <:+: msg.data) := by
  refine ⟨⟨fun h => ?_, validateCertBitLength_strong chain N⟩, BitLen_ge_iff N 2047, fun h => ?_⟩
  · by_contra hlt
    rw [validateCertBitLength_weak chain N (by omega)] at h
    cases h
  · refine ⟨_, validateCertBitLength_weak chain N h, ?_, ?_, ?_⟩
    · have h1 : "Validating certificate length, expected " ++ "2048" ++ " bits but the key is "
          = "Validating certificate length, expected 2048 bits but the key is " := by decide
      rw [h1]
    · refine ⟨"Validating certificate length, expected ".data,
        " bits but the key is ".data ++ (Itoa (BitLen N)).data, ?_⟩
      simp only [String.data_append, List.append_assoc]
    · refine ⟨("Validating certificate length, expected " ++ "2048"
        ++ " bits but the key is ").data, [], ?_⟩
      simp only [String.data_append, List.append_assoc, List.append_nil]

/-- Witness for C7: moduli of 2048, 2047 and 1024 bits. -/
theorem validateCertBitLength_rsa_witness :
    validateCertBitLength ⟨[], .rsa (2 ^ 2047)⟩ = none ∧
      validateCertBitLength ⟨[], .rsa (2 ^ 2046)⟩
        = some "Validating certificate length, expected 2048 bits but the key is 2047" ∧
      validateCertBitLength ⟨[], .rsa (2 ^ 1023)⟩
        = some "Validating certificate length, expected 2048 bits but the key is 1024" := by
  refine ⟨(validateCertBitLength_rsa [] (2 ^ 2047)).1.mpr (by rw [BitLen_two_pow]), ?_, ?_⟩
  · obtain ⟨msg, hres, hmsg, -, -⟩ :=
      (validateCertBitLength_rsa [] (2 ^ 2046)).2.2 (by rw [BitLen_two_pow]; decide)
    rw [hres, hmsg, BitLen_two_pow]
    decide
  · obtain ⟨msg, hres, hmsg, -, -⟩ :=
      (validateCertBitLength_rsa [] (2 ^ 1023)).2.2 (by rw [BitLen_two_pow]; decide)
    rw [hres, hmsg, BitLen_two_pow]
    decide

theorem validateSignatureHashAlgorithm_of_leaf (ParseCertificate : DER → ParseResult)
    (cert : TLSCertificate) (leaf : DER) (rest : List DER) (c : X509Certificate)
    (hchain : cert.Certificate = leaf :: rest) (hparse : ParseCertificate leaf = .ok c) :
    validateSignatureHashAlgorithm ParseCertificate cert =
      if c.SignatureAlgorithm = .SHA256WithRSA ∨ c.SignatureAlgorithm = .SHA384WithRSA
          ∨ c.SignatureAlgorithm = .SHA512WithRSA then
        .ret none
      else
        .ret (some ("x509: " ++ c.SignatureAlgorithm.String
          ++ " is an unsupported signature hash algorithm")) := by
  simp only [validateSignatureHashAlgorithm, hchain, hparse]

/-- C8, as the code has it. For every certificate whose leaf parses successfully,
`validateSignatureHashAlgorithm` succeeds when the signature algorithm of the leaf is
RSA (PKCS #1 v1.5) with SHA-256, SHA-384 or SHA-512, and succeeds only if the digest
of the signature algorithm is SHA-256, SHA-384 or SHA-512. Every signature algorithm
using another digest (SHA-1, MD5, MD2) or none, and every DSA or ECDSA algorithm
whatever its digest, is rejected with the error
`x509: <name> is an unsupported signature hash algorithm`. -/
theorem validateSignatureHashAlgorithm_policy (ParseCertificate : DER → ParseResult)
    (cert : TLSCertificate) (leaf : DER) (rest : List DER) (c : X509Certificate)
    (hchain : cert.Certificate = leaf :: rest) (hparse : ParseCertificate leaf = .ok c) :
    ((c.SignatureAlgorithm = .SHA256WithRSA ∨ c.SignatureAlgorithm = .SHA384WithRSA
        ∨ c.SignatureAlgorithm = .SHA512WithRSA) →
      validateSignatureHashAlgorithm ParseCertificate cert = .ret none) ∧
    (validateSignatureHashAlgorithm ParseCertificate cert = .ret none →
      (c.SignatureAlgorithm.digest = some .SHA256 ∨ c.SignatureAlgorithm.digest = some .SHA384
        ∨ c.SignatureAlgorithm.digest = some .SHA512)) ∧
    (¬ (c.SignatureAlgorithm.digest = some .SHA256 ∨ c.SignatureAlgorithm.digest = some .SHA384
        ∨ c.SignatureAlgorithm.digest = some .SHA512) →
      validateSignatureHashAlgorithm ParseCertificate cert
        = .ret (some ("x509: " ++ c.SignatureAlgorithm.String
            ++ " is an unsupported signature hash algorithm"))) ∧
    (c.SignatureAlgorithm ∈ [SignatureAlgorithm.DSAWithSHA1, .DSAWithSHA256, .ECDSAWithSHA1,
        .ECDSAWithSHA256, .ECDSAWithSHA384, .ECDSAWithSHA512] →
      validateSignatureHashAlgorithm ParseCertificate cert
        = .ret (some ("x509: " ++ c.SignatureAlgorithm.String
            ++ " is an unsupported signature hash algorithm"))) := by
  rw [validateSignatureHashAlgorithm_of_leaf ParseCertificate cert leaf rest c hchain hparse]
  refine ⟨?_, ?_, ?_, ?_⟩
  · intro h
    rw [if_pos h]
  · split_ifs with h
    · intro _
      rcases h with h | h | h <;> rw [h] <;> decide
    · intro hc
      cases hc
  · intro h
    rw [if_neg]
    intro hc
    apply h
    rcases hc with hc | hc | hc <;> rw [hc] <;> decide
  · intro h
    rw [if_neg]
    intro hc
    revert h
    rcases hc with hc | hc | hc <;> rw [hc] <;> decide

/-- Witness for C8: a leaf signed with SHA256-RSA is accepted and a leaf signed with
SHA1-RSA is rejected. -/
theorem validateSignatureHashAlgorithm_policy_witness :
    validateSignatureHashAlgorithm (fun _ => .ok ⟨.SHA256WithRSA⟩) ⟨[[0x30]], .rsa (2 ^ 2047)⟩
        = .ret none ∧
      validateSignatureHashAlgorithm (fun _ => .ok ⟨.SHA1WithRSA⟩) ⟨[[0x30]], .rsa (2 ^ 2047)⟩
        = .ret (some "x509: SHA1-RSA is an unsupported signature hash algorithm") :=
  ⟨(validateSignatureHashAlgorithm_policy (fun _ => .ok ⟨.SHA256WithRSA⟩)
      ⟨[[0x30]], .rsa (2 ^ 2047)⟩ [0x30] [] ⟨.SHA256WithRSA⟩ rfl rfl).1 (Or.inl rfl),
    (validateSignatureHashAlgorithm_policy (fun _ => .ok ⟨.SHA1WithRSA⟩)
      ⟨[[0x30]], .rsa (2 ^ 2047)⟩ [0x30] [] ⟨.SHA1WithRSA⟩ rfl rfl).2.2.1 (by decide)⟩

/-- Counterexample to C8 as stated: a leaf whose signature algorithm is
ECDSA-SHA256 has the digest SHA-256 and is rejected. -/
theorem validateSignatureHashAlgorithm_rejects_ecdsa_sha256 :
    SignatureAlgorithm.digest .ECDSAWithSHA256 = some .SHA256 ∧
      validateSignatureHashAlgorithm (fun _ => .ok ⟨.ECDSAWithSHA256⟩)
          ⟨[[0x30]], .rsa (2 ^ 2047)⟩
        = .ret (some "x509: ECDSA-SHA256 is an unsupported signature hash algorithm") ∧
      validateSignatureHashAlgorithm (fun _ => .ok ⟨.ECDSAWithSHA256⟩)
          ⟨[[0x30]], .rsa (2 ^ 2047)⟩
        ≠ .ret none := by
  refine ⟨rfl, ?_, ?_⟩
  · simp only [validateSignatureHashAlgorithm]
    decide
  · simp only [validateSignatureHashAlgorithm]
    decide

theorem meetCryptoRequirements_of_method_error (ParseCertificate : DER → ParseResult)
    (cert : TLSCertificate) (e : String) (h : validateSignatureMethod cert = some e) :
    meetCryptoRequirements ParseCertificate cert = .ret (some e) := by
  simp only [meetCryptoRequirements, h]

theorem meetCryptoRequirements_of_length_error (ParseCertificate : DER → ParseResult)
    (cert : TLSCertificate) (e : String) (h1 : validateSignatureMethod cert = none)
    (h2 : validateCertBitLength cert = some e) :
    meetCryptoRequirements ParseCertificate cert = .ret (some e) := by
  simp only [meetCryptoRequirements, h1, h2]

theorem meetCryptoRequirements_of_hash (ParseCertificate : DER → ParseResult)
    (cert : TLSCertificate) (h1 : validateSignatureMethod cert = none)
    (h2 : validateCertBitLength cert = none) :
    meetCryptoRequirements ParseCertificate cert
      = validateSignatureHashAlgorithm ParseCertificate cert := by
  simp only [meetCryptoRequirements, h1, h2]
  cases h : validateSignatureHashAlgorithm ParseCertificate cert with
  | panic r => rfl
  | ret e => cases e <;> rfl

theorem meetCryptoRequirements_ok_iff (ParseCertificate : DER → ParseResult)
    (cert : TLSCertificate) :
    meetCryptoRequirements ParseCertificate cert = .ret none ↔
      (validateSignatureMethod cert = none ∧ validateCertBitLength cert = none
        ∧ validateSignatureHashAlgorithm ParseCertificate cert = .ret none) := by
  constructor
  · intro h
    cases h1 : validateSignatureMethod cert with
    | some e =>
      rw [meetCryptoRequirements_of_method_error ParseCertificate cert e h1] at h
      cases h
    | none =>
      cases h2 : validateCertBitLength cert with
      | some e =>
        rw [meetCryptoRequirements_of_length_error ParseCertificate cert e h1 h2] at h
        cases h
      | none =>
        rw [meetCryptoRequirements_of_hash ParseCertificate cert h1 h2] at h
        exact ⟨rfl, rfl, h⟩
  · rintro ⟨h1, h2, h3⟩
    rw [meetCryptoRequirements_of_hash ParseCertificate cert h1 h2, h3]

theorem validateSignatureMethod_of_not_rsa (cert : TLSCertificate)
    (h : ∀ N, cert.PrivateKey ≠ .rsa N) :
    validateSignatureMethod cert = some errorUnsupportedSignature := by
  unfold validateSignatureMethod
  cases hk : cert.PrivateKey with
  | rsa N => exact absurd hk (h N)
  | nil => rfl
  | ecdsa => rfl
  | ed25519 => rfl

/-- C9. `GetCertificateChain` returns a certificate with a nil error only if the
loading succeeded and the three policy checks pass, and it is then the loaded
certificate. `meetCryptoRequirements` runs the checks in the order signature method,
key bit length, signature hash and returns the error of the first check that fails:
a key that is not an RSA key gives the `errorUnsupportedSignature` error whatever the
certificate holds, and a weak RSA key gives the bit-length error whatever the hash is.
On a loading failure or a policy failure `GetCertificateChain` returns the empty
certificate together with that error. -/
theorem GetCertificateChain_policy
    (LoadX509KeyPair : String → String → TLSCertificate × GoError)
    (ParseCertificate : DER → ParseResult) (certFile keyFile : String) :
    (∀ cert : TLSCertificate,
      GetCertificateChain LoadX509KeyPair ParseCertificate certFile keyFile = .ret (cert, none) →
        LoadX509KeyPair certFile keyFile = (cert, none) ∧
        validateSignatureMethod cert = none ∧ validateCertBitLength cert = none ∧
        validateSignatureHashAlgorithm ParseCertificate cert = .ret none) ∧
    (∀ cert : TLSCertificate, LoadX509KeyPair certFile keyFile = (cert, none) →
      validateSignatureMethod cert = none → validateCertBitLength cert = none →
      validateSignatureHashAlgorithm ParseCertificate cert = .ret none →
        GetCertificateChain LoadX509KeyPair ParseCertificate certFile keyFile
          = .ret (cert, none)) ∧
    (∀ (cert : TLSCertificate) (e : String), validateSignatureMethod cert = some e →
      meetCryptoRequirements ParseCertificate cert = .ret (some e)) ∧
    (∀ (cert : TLSCertificate) (e : String), validateSignatureMethod cert = none →
      validateCertBitLength cert = some e →
      meetCryptoRequirements ParseCertificate cert = .ret (some e)) ∧
    (∀ cert : TLSCertificate, validateSignatureMethod cert = none →
      validateCertBitLength cert = none →
      meetCryptoRequirements ParseCertificate cert
        = validateSignatureHashAlgorithm ParseCertificate cert) ∧
    (∀ cert : TLSCertificate, (∀ N, cert.PrivateKey ≠ .rsa N) →
      meetCryptoRequirements ParseCertificate cert = .ret (some errorUnsupportedSignature)) ∧
    (∀ (chain : List DER) (N : Int), BitLen N < 2048 →
      meetCryptoRequirements ParseCertificate ⟨chain, .rsa N⟩
        = .ret (some ("Validating certificate length, expected 2048 bits but the key is "
            ++ Itoa (BitLen N)))) ∧
    (∀ (cert : TLSCertificate) (e : String), LoadX509KeyPair certFile keyFile = (cert, some e) →
      GetCertificateChain LoadX509KeyPair ParseCertificate certFile keyFile
        = .ret (TLSCertificate.empty, some e)) ∧
    (∀ (cert : TLSCertificate) (e : String), LoadX509KeyPair certFile keyFile = (cert, none) →
      meetCryptoRequirements ParseCertificate cert = .ret (some e) →
      GetCertificateChain LoadX509KeyPair ParseCertificate certFile keyFile
        = .ret (TLSCertificate.empty, some e)) := by
  refine ⟨?_, ?_, meetCryptoRequirements_of_method_error ParseCertificate,
    meetCryptoRequirements_of_length_error ParseCertificate,
    meetCryptoRequirements_of_hash ParseCertificate, ?_, ?_, ?_, ?_⟩
  · intro cert h
    unfold GetCertificateChain at h
    rcases hl : LoadX509KeyPair certFile keyFile with ⟨c, e⟩
    rw [hl] at h
    cases e with
    | some e => cases h
    | none =>
      simp only [] at h
      cases hm : meetCryptoRequirements ParseCertificate c with
      | panic r => rw [hm] at h; cases h
      | ret r =>
        rw [hm] at h
        cases r with
        | some e => cases h
        | none =>
          simp only [Outcome.ret.injEq, Prod.mk.injEq, and_true] at h
          subst h
          exact ⟨rfl, (meetCryptoRequirements_ok_iff ParseCertificate c).mp hm⟩
  · intro cert hl h1 h2 h3
    have hm := (meetCryptoRequirements_ok_iff ParseCertificate cert).mpr ⟨h1, h2, h3⟩
    simp only [GetCertificateChain, hl, hm]
  · intro cert h
    exact meetCryptoRequirements_of_method_error ParseCertificate cert _
      (validateSignatureMethod_of_not_rsa cert h)
  · intro chain N h
    have hw := validateCertBitLength_weak chain N h
    have h1 : "Validating certificate length, expected " ++ "2048" ++ " bits but the key is "
        = "Validating certificate length, expected 2048 bits but the key is " := by decide
    rw [h1] at hw
    exact meetCryptoRequirements_of_length_error ParseCertificate _ _ rfl hw
  · intro cert e hl
    simp only [GetCertificateChain, hl]
  · intro cert e hl hm
    simp only [GetCertificateChain, hl, hm]

/-- Witness for C9: an ECDSA key with a SHA-256 certificate, a 1024-bit RSA key with
a SHA-1 certificate, and a 2048-bit RSA key with a SHA-256 certificate. -/
theorem GetCertificateChain_policy_witness :
    GetCertificateChain (fun _ _ => (⟨[[0x30]], .ecdsa⟩, none))
        (fun _ => .ok ⟨.SHA256WithRSA⟩) "cert.pem" "key.pem"
        = .ret (TLSCertificate.empty, some errorUnsupportedSignature) ∧
      GetCertificateChain (fun _ _ => (⟨[[0x30]], .rsa (2 ^ 1023)⟩, none))
        (fun _ => .ok ⟨.SHA1WithRSA⟩) "cert.pem" "key.pem"
        = .ret (TLSCertificate.empty,
            some "Validating certificate length, expected 2048 bits but the key is 1024") ∧
      GetCertificateChain (fun _ _ => (⟨[[0x30]], .rsa (2 ^ 2047)⟩, none))
        (fun _ => .ok ⟨.SHA256WithRSA⟩) "cert.pem" "key.pem"
        = .ret (⟨[[0x30]], .rsa (2 ^ 2047)⟩, none) := by
  refine ⟨?_, ?_, ?_⟩
  · have h := GetCertificateChain_policy (fun _ _ => (⟨[[0x30]], .ecdsa⟩, none))
      (fun _ => .ok ⟨.SHA256WithRSA⟩) "cert.pem" "key.pem"
    exact h.2.2.2.2.2.2.2.2 ⟨[[0x30]], .ecdsa⟩ _ rfl
      (h.2.2.2.2.2.1 ⟨[[0x30]], .ecdsa⟩ (fun N hc => by cases hc))
  · have h := GetCertificateChain_policy (fun _ _ => (⟨[[0x30]], .rsa (2 ^ 1023)⟩, none))
      (fun _ => .ok ⟨.SHA1WithRSA⟩) "cert.pem" "key.pem"
    have hm := h.2.2.2.2.2.2.1 [[0x30]] (2 ^ 1023) (by rw [BitLen_two_pow]; decide)
    rw [BitLen_two_pow] at hm
    exact h.2.2.2.2.2.2.2.2 ⟨[[0x30]], .rsa (2 ^ 1023)⟩ _ rfl hm
  · have h := GetCertificateChain_policy (fun _ _ => (⟨[[0x30]], .rsa (2 ^ 2047)⟩, none))
      (fun _ => .ok ⟨.SHA256WithRSA⟩) "cert.pem" "key.pem"
    exact h.2.1 ⟨[[0x30]], .rsa (2 ^ 2047)⟩ rfl rfl
      (validateCertBitLength_strong _ _ (by rw [BitLen_two_pow])) rfl

/-! ### Cipher suites -/

/-- C10. After `SetCipherSuites` the `CipherSuites` field is the fixed list of six
suites whatever it held before, `PreferServerCipherSuites` is true, and every other
field, `Certificates` in particular, is unchanged; applying `SetCipherSuites` twice
gives the same configuration as applying it once. The configuration `main` builds
holds the certificate, the six suites and the server preference. -/
theorem SetCipherSuites_frame {ρ : Type} (c : Config ρ) :
    (SetCipherSuites c).CipherSuites = [0xc030, 0xc02f, 0xc027, 0x003c, 0x009d, 0x009c] ∧
    (SetCipherSuites c).CipherSuites = [TLS_ECDHE_RSA_WITH_AES_256_GCM_SHA384,
      TLS_ECDHE_RSA_WITH_AES_128_GCM_SHA256, TLS_ECDHE_RSA_WITH_AES_128_CBC_SHA256,
      TLS_RSA_WITH_AES_128_CBC_SHA256, TLS_RSA_WITH_AES_256_GCM_SHA384,
      TLS_RSA_WITH_AES_128_GCM_SHA256] ∧
    (SetCipherSuites c).CipherSuites.length = 6 ∧
    (SetCipherSuites c).PreferServerCipherSuites = true ∧
    (SetCipherSuites c).Certificates = c.Certificates ∧
    (SetCipherSuites c).others = c.others ∧
    SetCipherSuites (SetCipherSuites c) = SetCipherSuites c ∧
    (∀ (zero : ρ) (cert : TLSCertificate),
      (mainTLSConfig zero cert).Certificates = [cert] ∧
      (mainTLSConfig zero cert).CipherSuites = (SetCipherSuites c).CipherSuites ∧
      (mainTLSConfig zero cert).PreferServerCipherSuites = true ∧
      (mainTLSConfig zero cert).others = zero) :=
  ⟨rfl, rfl, rfl, rfl, rfl, rfl, rfl, fun _ _ => ⟨rfl, rfl, rfl, rfl⟩⟩

/-! ### Handlers -/

theorem nextAvailablePort_of_success (r : CommandResult) (h : r.err = none) :
    ∃ port, nextAvailablePort r = .ret (port, none) := by
  obtain ⟨stdout, err⟩ := r
  simp only at h
  subst h
  by_cases hf : Fields stdout = []
  · exact ⟨_, nextAvailablePort_empty stdout hf⟩
  · obtain ⟨t, -, -, hres⟩ := nextAvailablePort_nonempty stdout hf
    exact ⟨_, hres⟩

theorem nextAvailablePort_of_failure (r : CommandResult) (e : String) (h : r.err = some e) :
    nextAvailablePort r = .ret ("", some ("[docker] ps error: " ++ e)) := by
  simp only [nextAvailablePort, h]

theorem writeResponse_errorResponse (code : Nat) (d : String) :
    writeResponse code (.errorResponse ⟨d⟩)
      = ⟨code, "\x7b\"description\":" ++ encodeString d ++ "\x7d"⟩ := rfl

theorem Provision_of_validated (runtime : List String → CommandResult) (instanceID : String)
    (decoded : Decoded ProvisionBody) (hE : decoded.bodyErr ≠ .EOF)
    (hv : validateProvisionInputs decoded.body instanceID = .ret none) :
    Provision runtime instanceID decoded =
      match nextAvailablePort (runtime portsQuery) with
      | .panic reason => ⟨[portsQuery], .panic reason⟩
      | .ret (_, some _) =>
        ⟨[portsQuery],
          .ret (writeResponse StatusInternalServerError (.errorResponse ⟨provisionError⟩))⟩
      | .ret (port, none) =>
        match (runtime (runCommand instanceID port)).err with
        | some _ =>
          ⟨[portsQuery, runCommand instanceID port],
            .ret (writeResponse StatusInternalServerError (.errorResponse ⟨provisionError⟩))⟩
        | none =>
          ⟨[portsQuery, runCommand instanceID port],
            .ret (writeResponse StatusCreated
              (.provisionResponse ⟨"https://dashboard.example.com", "task_01"⟩))⟩ := by
  unfold Provision
  cases hb : decoded.bodyErr with
  | EOF => exact absurd hb hE
  | nil => simp only [hv]
  | other msg => simp only [hv]

theorem Provision_query_failed (runtime : List String → CommandResult) (instanceID : String)
    (decoded : Decoded ProvisionBody) (hE : decoded.bodyErr ≠ .EOF)
    (hv : validateProvisionInputs decoded.body instanceID = .ret none)
    (e : String) (he : (runtime portsQuery).err = some e) :
    Provision runtime instanceID decoded =
      ⟨[portsQuery], .ret ⟨500,
        "\x7b\"description\":\"Error creating the database service.\"\x7d"⟩⟩ := by
  rw [Provision_of_validated runtime instanceID decoded hE hv,
    nextAvailablePort_of_failure _ e he]
  rfl

theorem Provision_create_failed (runtime : List String → CommandResult) (instanceID : String)
    (decoded : Decoded ProvisionBody) (hE : decoded.bodyErr ≠ .EOF)
    (hv : validateProvisionInputs decoded.body instanceID = .ret none)
    (port : String) (hp : nextAvailablePort (runtime portsQuery) = .ret (port, none))
    (e : String) (he : (runtime (runCommand instanceID port)).err = some e) :
    Provision runtime instanceID decoded =
      ⟨[portsQuery, runCommand instanceID port], .ret ⟨500,
        "\x7b\"description\":\"Error creating the database service.\"\x7d"⟩⟩ := by
  rw [Provision_of_validated runtime instanceID decoded hE hv, hp]
  simp only [he]
  rfl

theorem Provision_created (runtime : List String → CommandResult) (instanceID : String)
    (decoded : Decoded ProvisionBody) (hE : decoded.bodyErr ≠ .EOF)
    (hv : validateProvisionInputs decoded.body instanceID = .ret none)
    (port : String) (hp : nextAvailablePort (runtime portsQuery) = .ret (port, none))
    (he : (runtime (runCommand instanceID port)).err = none) :
    Provision runtime instanceID decoded =
      ⟨[portsQuery, runCommand instanceID port], .ret ⟨201,
        "\x7b\"dashboard_url\":\"https://dashboard.example.com\",\"operation\":\"task_01\"\x7d"⟩⟩ := by
  rw [Provision_of_validated runtime instanceID decoded hE hv, hp]
  simp only [he]
  rfl

theorem Deprovision_remove_failed (runtime : List String → CommandResult)
    (instanceID serviceID planID : String)
    (hv : validateDeprovisionInputs instanceID serviceID planID = none)
    (e : String) (he : (runtime (rmCommand instanceID)).err = some e) :
    Deprovision runtime instanceID serviceID planID =
      ⟨[rmCommand instanceID], .ret ⟨500,
        "\x7b\"description\":\"Error deleting the database service.\"\x7d"⟩⟩ := by
  simp only [Deprovision, hv, he]
  rfl

theorem Deprovision_removed (runtime : List String → CommandResult)
    (instanceID serviceID planID : String)
    (hv : validateDeprovisionInputs instanceID serviceID planID = none)
    (he : (runtime (rmCommand instanceID)).err = none) :
    Deprovision runtime instanceID serviceID planID =
      ⟨[rmCommand instanceID], .ret ⟨200, "\x7b\"operation\":\"task_01\"\x7d"⟩⟩ := by
  simp only [Deprovision, hv, he]
  rfl
theorem portsQuery_ne_runCommand (instanceID port : String) :
    portsQuery ≠ runCommand instanceID port := by
  intro h
  have := congrArg List.head? h
  simp [portsQuery, runCommand] at this

/-- C11. With the container runtime as an oracle giving the result of each command:
for every Provision request whose body was read and whose inputs pass validation, a
failed port query gives status 500 with the description
`Error creating the database service.` whatever the error is, and the create command
is not run; when the port query succeeds it yields a port, and a failed create
command gives the same 500 response while a successful one gives 201; so 201 is
returned only when both succeeded. For every Deprovision request whose inputs pass
validation, a failed removal gives status 500 with the description
`Error deleting the database service.`, a successful one gives 200, and 200 is
returned only when the removal succeeded. -/
theorem runtime_failure_gives_generic_500 (runtime : List String → CommandResult) :
    (∀ (instanceID : String) (decoded : Decoded ProvisionBody),
      decoded.bodyErr ≠ .EOF → validateProvisionInputs decoded.body instanceID = .ret none →
        (∀ e : String, (runtime portsQuery).err = some e →
          Provision runtime instanceID decoded =
            ⟨[portsQuery], .ret ⟨500,
              "\x7b\"description\":\"Error creating the database service.\"\x7d"⟩⟩ ∧
          ∀ port : String,
            runCommand instanceID port ∉ (Provision runtime instanceID decoded).commands) ∧
        ((runtime portsQuery).err = none →
          ∃ port : String, nextAvailablePort (runtime portsQuery) = .ret (port, none) ∧
            (∀ e : String, (runtime (runCommand instanceID port)).err = some e →
              Provision runtime instanceID decoded =
                ⟨[portsQuery, runCommand instanceID port], .ret ⟨500,
                  "\x7b\"description\":\"Error creating the database service.\"\x7d"⟩⟩) ∧
            ((runtime (runCommand instanceID port)).err = none →
              Provision runtime instanceID decoded =
                ⟨[portsQuery, runCommand instanceID port], .ret ⟨201,
                  "\x7b\"dashboard_url\":\"https://dashboard.example.com\","
                    ++ "\"operation\":\"task_01\"\x7d"⟩⟩)) ∧
        (∀ r : Response, (Provision runtime instanceID decoded).response = .ret r →
          r.code = 201 →
            (runtime portsQuery).err = none ∧
            ∃ port : String, nextAvailablePort (runtime portsQuery) = .ret (port, none) ∧
              (runtime (runCommand instanceID port)).err = none)) ∧
    (∀ (instanceID serviceID planID : String),
      validateDeprovisionInputs instanceID serviceID planID = none →
        (∀ e : String, (runtime (rmCommand instanceID)).err = some e →
          Deprovision runtime instanceID serviceID planID =
            ⟨[rmCommand instanceID], .ret ⟨500,
              "\x7b\"description\":\"Error deleting the database service.\"\x7d"⟩⟩) ∧
        ((runtime (rmCommand instanceID)).err = none →
          Deprovision runtime instanceID serviceID planID =
            ⟨[rmCommand instanceID], .ret ⟨200, "\x7b\"operation\":\"task_01\"\x7d"⟩⟩) ∧
        (∀ r : Response, (Deprovision runtime instanceID serviceID planID).response = .ret r →
          r.code = 200 → (runtime (rmCommand instanceID)).err = none)) := by
  refine ⟨fun instanceID decoded hE hv => ⟨?_, ?_, ?_⟩,
    fun instanceID serviceID planID hv => ⟨?_, ?_, ?_⟩⟩
  · intro e he
    have hp := Provision_query_failed runtime instanceID decoded hE hv e he
    refine ⟨hp, fun port hmem => ?_⟩
    rw [hp] at hmem
    simp only [List.mem_singleton] at hmem
    exact portsQuery_ne_runCommand instanceID port hmem.symm
  · intro hq
    obtain ⟨port, hp⟩ := nextAvailablePort_of_success _ hq
    exact ⟨port, hp, Provision_create_failed runtime instanceID decoded hE hv port hp,
      Provision_created runtime instanceID decoded hE hv port hp⟩
  · intro r hr hcode
    cases hq : (runtime portsQuery).err with
    | some e =>
      rw [Provision_query_failed runtime instanceID decoded hE hv e hq] at hr
      simp only [Outcome.ret.injEq] at hr
      rw [← hr] at hcode
      simp at hcode
    | none =>
      obtain ⟨port, hp⟩ := nextAvailablePort_of_success _ hq
      refine ⟨rfl, port, hp, ?_⟩
      cases hc : (runtime (runCommand instanceID port)).err with
      | none => rfl
      | some e =>
        rw [Provision_create_failed runtime instanceID decoded hE hv port hp e hc] at hr
        simp only [Outcome.ret.injEq] at hr
        rw [← hr] at hcode
        simp at hcode
  · exact Deprovision_remove_failed runtime instanceID serviceID planID hv
  · exact Deprovision_removed runtime instanceID serviceID planID hv
  · intro r hr hcode
    cases hc : (runtime (rmCommand instanceID)).err with
    | none => rfl
    | some e =>
      rw [Deprovision_remove_failed runtime instanceID serviceID planID hv e hc] at hr
      simp only [Outcome.ret.injEq] at hr
      rw [← hr] at hcode
      simp at hcode

/-- Witness for C11: a runtime on which every command fails with `exit status 1`; a
runtime that lists no port and fails every other command with `exit status 125`; a
runtime on which every command succeeds with no output. -/
theorem runtime_failure_gives_generic_500_witness :
    Provision (fun _ => ⟨"", some "exit status 1"⟩) "123e4567-e89b-12d3-a456-426614174000"
        ⟨some ⟨"011ca270-ad21-44e2-95d6-60c70a840a80", "4f79aa95-b5ca-4030-a263-c58cb2c61dfc",
          "0a1b2c3d-4e5f-6071-8293-a4b5c6d7e8f9", "00000000-0000-0000-0000-000000000000"⟩, .nil⟩
        = ⟨[portsQuery], .ret ⟨500,
            "\x7b\"description\":\"Error creating the database service.\"\x7d"⟩⟩ ∧
      Provision (fun argv => if argv = portsQuery then ⟨"", none⟩
          else ⟨"", some "exit status 125"⟩) "123e4567-e89b-12d3-a456-426614174000"
        ⟨some ⟨"011ca270-ad21-44e2-95d6-60c70a840a80", "4f79aa95-b5ca-4030-a263-c58cb2c61dfc",
          "0a1b2c3d-4e5f-6071-8293-a4b5c6d7e8f9", "00000000-0000-0000-0000-000000000000"⟩, .nil⟩
        = ⟨[portsQuery, runCommand "123e4567-e89b-12d3-a456-426614174000" "59000"],
            .ret ⟨500, "\x7b\"description\":\"Error creating the database service.\"\x7d"⟩⟩ ∧
      (Provision (fun _ => ⟨"", none⟩) "123e4567-e89b-12d3-a456-426614174000"
        ⟨some ⟨"011ca270-ad21-44e2-95d6-60c70a840a80", "4f79aa95-b5ca-4030-a263-c58cb2c61dfc",
          "0a1b2c3d-4e5f-6071-8293-a4b5c6d7e8f9", "00000000-0000-0000-0000-000000000000"⟩,
          .nil⟩).response
        = .ret ⟨201, "\x7b\"dashboard_url\":\"https://dashboard.example.com\","
            ++ "\"operation\":\"task_01\"\x7d"⟩ ∧
      Deprovision (fun _ => ⟨"", some "exit status 1"⟩) "123e4567-e89b-12d3-a456-426614174000"
        "011ca270-ad21-44e2-95d6-60c70a840a80" "4f79aa95-b5ca-4030-a263-c58cb2c61dfc"
        = ⟨[rmCommand "123e4567-e89b-12d3-a456-426614174000"], .ret ⟨500,
            "\x7b\"description\":\"Error deleting the database service.\"\x7d"⟩⟩ := by
  refine ⟨?_, ?_, ?_, ?_⟩
  · exact (((runtime_failure_gives_generic_500 (fun _ => ⟨"", some "exit status 1"⟩)).1
      "123e4567-e89b-12d3-a456-426614174000"
      ⟨some ⟨"011ca270-ad21-44e2-95d6-60c70a840a80", "4f79aa95-b5ca-4030-a263-c58cb2c61dfc",
        "0a1b2c3d-4e5f-6071-8293-a4b5c6d7e8f9", "00000000-0000-0000-0000-000000000000"⟩, .nil⟩
      (by decide) (by decide)).1 "exit status 1" rfl).1
  · obtain ⟨port, hp, hfail, -⟩ :=
      ((runtime_failure_gives_generic_500 (fun argv => if argv = portsQuery then ⟨"", none⟩
          else ⟨"", some "exit status 125"⟩)).1
        "123e4567-e89b-12d3-a456-426614174000"
        ⟨some ⟨"011ca270-ad21-44e2-95d6-60c70a840a80", "4f79aa95-b5ca-4030-a263-c58cb2c61dfc",
          "0a1b2c3d-4e5f-6071-8293-a4b5c6d7e8f9", "00000000-0000-0000-0000-000000000000"⟩,
          .nil⟩
        (by decide) (by decide)).2.1 (by decide)
    have hport : port = "59000" := by
      have h59 : nextAvailablePort ((fun argv => if argv = portsQuery then
          (⟨"", none⟩ : CommandResult) else ⟨"", some "exit status 125"⟩) portsQuery)
          = .ret ("59000", none) := by decide
      rw [h59] at hp
      simp only [Outcome.ret.injEq, Prod.mk.injEq, and_true] at hp
      exact hp.symm
    subst hport
    exact hfail "exit status 125" (by decide)
  · obtain ⟨port, hp, -, hok⟩ :=
      ((runtime_failure_gives_generic_500 (fun _ => ⟨"", none⟩)).1
        "123e4567-e89b-12d3-a456-426614174000"
        ⟨some ⟨"011ca270-ad21-44e2-95d6-60c70a840a80", "4f79aa95-b5ca-4030-a263-c58cb2c61dfc",
          "0a1b2c3d-4e5f-6071-8293-a4b5c6d7e8f9", "00000000-0000-0000-0000-000000000000"⟩,
          .nil⟩
        (by decide) (by decide)).2.1 rfl
    rw [hok rfl]
  · exact ((runtime_failure_gives_generic_500 (fun _ => ⟨"", some "exit status 1"⟩)).2
      "123e4567-e89b-12d3-a456-426614174000" "011ca270-ad21-44e2-95d6-60c70a840a80"
      "4f79aa95-b5ca-4030-a263-c58cb2c61dfc" (by decide)).1 "exit status 1" rfl

theorem validateUnBindInputs_accept (instanceID bindingID serviceID planID : String)
    (h₁ : CanonicalUUID instanceID) (h₂ : CanonicalUUID bindingID)
    (h₃ : CanonicalUUID serviceID) (h₄ : CanonicalUUID planID) :
    validateUnBindInputs instanceID bindingID serviceID planID = none := by
  have hc : (isNull instanceID || isNull bindingID || isNull serviceID || isNull planID)
      = false := by
    simp only [Bool.or_eq_false_iff, isNull_false_iff]
    exact ⟨⟨⟨h₁.ne_empty, h₂.ne_empty⟩, h₃.ne_empty⟩, h₄.ne_empty⟩
  simp [validateUnBindInputs, hc, (isUUID_iff_canonical _).mpr h₁,
    (isUUID_iff_canonical _).mpr h₂, (isUUID_iff_canonical _).mpr h₃,
    (isUUID_iff_canonical _).mpr h₄]

theorem UnBind_of_canonical (instanceID bindingID serviceID planID : String)
    (h₁ : CanonicalUUID instanceID) (h₂ : CanonicalUUID bindingID)
    (h₃ : CanonicalUUID serviceID) (h₄ : CanonicalUUID planID) :
    UnBind instanceID bindingID serviceID planID = ⟨[], .ret ⟨200, "\"\x7b\x7d\""⟩⟩ := by
  simp only [UnBind, validateUnBindInputs_accept instanceID bindingID serviceID planID h₁ h₂ h₃ h₄]
  rfl

/-- C12 at its failing input: for an UnBind request with four canonical UUIDs the
handler runs no command and answers 200, but the body it writes is the JSON encoding
of the Go string of the two braces: four bytes, a JSON string between double quotes,
not the two-byte empty object. -/
theorem UnBind_body_is_a_json_string :
    UnBind "123e4567-e89b-12d3-a456-426614174000" "0a1b2c3d-4e5f-6071-8293-a4b5c6d7e8f9"
        "011ca270-ad21-44e2-95d6-60c70a840a80" "4f79aa95-b5ca-4030-a263-c58cb2c61dfc"
        = ⟨[], .ret ⟨200, "\"\x7b\x7d\""⟩⟩ ∧
      "\"\x7b\x7d\"".data = ['"', '\x7b', '\x7d', '"'] ∧
      "\"\x7b\x7d\"".length = 4 ∧
      UnBind "123e4567-e89b-12d3-a456-426614174000" "0a1b2c3d-4e5f-6071-8293-a4b5c6d7e8f9"
        "011ca270-ad21-44e2-95d6-60c70a840a80" "4f79aa95-b5ca-4030-a263-c58cb2c61dfc"
        ≠ ⟨[], .ret ⟨200, "\x7b\x7d"⟩⟩ := by
  decide

theorem Provision_of_nil_body (runtime : List String → CommandResult) (instanceID : String)
    (bodyErr : DecodeError) (hE : bodyErr ≠ .EOF) :
    Provision runtime instanceID ⟨none, bodyErr⟩
      = ⟨[], .panic "invalid memory address or nil pointer dereference"⟩ := by
  cases bodyErr with
  | EOF => exact absurd rfl hE
  | nil => rfl
  | other msg => rfl

theorem Bind_of_nil_body (instanceID bindingID : String)
    (bodyErr : DecodeError) (hE : bodyErr ≠ .EOF) :
    Bind instanceID bindingID ⟨none, bodyErr⟩
      = ⟨[], .panic "invalid memory address or nil pointer dereference"⟩ := by
  cases bodyErr with
  | EOF => exact absurd rfl hE
  | nil => rfl
  | other msg => rfl

theorem Provision_of_empty_body (runtime : List String → CommandResult) (instanceID : String)
    (body : Option ProvisionBody) :
    Provision runtime instanceID ⟨body, .EOF⟩
      = ⟨[], .ret ⟨400, "\x7b\"description\":\"Please send a request body.\"\x7d"⟩⟩ := rfl

theorem Bind_of_empty_body (instanceID bindingID : String) (body : Option BindBody) :
    Bind instanceID bindingID ⟨body, .EOF⟩
      = ⟨[], .ret ⟨400, "\x7b\"description\":\"Please send a request body.\"\x7d"⟩⟩ := rfl

/-- C13 at its failing inputs: a Provision or Bind request whose body is the JSON
value `null` (no decoding error, nil body pointer), or is cut short (a decoding error
other than end of input, nil body pointer), reaches the validator with the nil body:
the handler panics on the nil pointer dereference and writes no response. A request
with an empty body is answered 400 with `Please send a request body.`. -/
theorem nil_body_reaches_the_validator :
    Provision (fun _ => ⟨"", none⟩) "123e4567-e89b-12d3-a456-426614174000" ⟨none, .nil⟩
        = ⟨[], .panic "invalid memory address or nil pointer dereference"⟩ ∧
      Provision (fun _ => ⟨"", none⟩) "123e4567-e89b-12d3-a456-426614174000"
        ⟨none, .other "unexpected EOF"⟩
        = ⟨[], .panic "invalid memory address or nil pointer dereference"⟩ ∧
      Bind "123e4567-e89b-12d3-a456-426614174000" "0a1b2c3d-4e5f-6071-8293-a4b5c6d7e8f9"
        ⟨none, .nil⟩
        = ⟨[], .panic "invalid memory address or nil pointer dereference"⟩ ∧
      Bind "123e4567-e89b-12d3-a456-426614174000" "0a1b2c3d-4e5f-6071-8293-a4b5c6d7e8f9"
        ⟨none, .other "unexpected EOF"⟩
        = ⟨[], .panic "invalid memory address or nil pointer dereference"⟩ ∧
      Provision (fun _ => ⟨"", none⟩) "123e4567-e89b-12d3-a456-426614174000" ⟨none, .EOF⟩
        = ⟨[], .ret ⟨400, "\x7b\"description\":\"Please send a request body.\"\x7d"⟩⟩ ∧
      Bind "123e4567-e89b-12d3-a456-426614174000" "0a1b2c3d-4e5f-6071-8293-a4b5c6d7e8f9"
        ⟨none, .EOF⟩
        = ⟨[], .ret ⟨400, "\x7b\"description\":\"Please send a request body.\"\x7d"⟩⟩ :=
  ⟨Provision_of_nil_body _ _ _ (by decide), Provision_of_nil_body _ _ _ (by decide),
    Bind_of_nil_body _ _ _ (by decide), Bind_of_nil_body _ _ _ (by decide),
    Provision_of_empty_body _ _ _, Bind_of_empty_body _ _ _⟩

end CfNosqlBroker
